import Mathlib

/-!
Verification development for the AutoAccess LaTeX processing core
(`src/utils/latexValidator.ts` and `src/utils/latexToHtml.ts`).

The TypeScript sources are shallowly embedded here: strings are `List Char`
(wrapped in `String` at the API boundary), every regular-expression driven
`replace`/`match`/`split` of the source is implemented as an explicit
character-level scanner with the same matching semantics (leftmost match,
lazy/greedy quantifiers, lookbehind/lookahead as used by the source), and the
stateful placeholder tables of the converter are threaded explicitly.
-/

namespace AutoAccess

/-- Character lists, the working representation of JS strings. -/
abbrev Str := List Char

/-- JS `\s` whitespace (the members handled by the scanners: ASCII whitespace
plus NBSP and BOM, as matched by JavaScript's `\s`). -/
def jsSpace (c : Char) : Bool :=
  c == ' ' || c == '\t' || c == '\n' || c == '\r' ||
  c == Char.ofNat 11 || c == Char.ofNat 12 || c == Char.ofNat 160 ||
  c == Char.ofNat 65279

/-- JS `String.prototype.trim` over the modelled whitespace set. -/
def jsTrim (s : Str) : Str :=
  ((s.dropWhile fun c => jsSpace c).reverse.dropWhile fun c => jsSpace c).reverse

/-- Index of the leftmost occurrence of `p` as a contiguous sublist of `s`. -/
def findSub (p : Str) : Str → Option Nat
  | [] => if p.isEmpty then some 0 else none
  | c :: cs =>
    if p.isPrefixOf (c :: cs) then some 0 else (findSub p cs).map (· + 1)

/-- Whether `p` occurs as a contiguous sublist of `s` (JS `includes`). -/
def containsSub (p : Str) (s : Str) : Bool := (findSub p s).isSome

/-- Number of non-overlapping leftmost occurrences of `p` in `s`
(JS `(s.match(/p/g) || []).length` for a literal pattern `p`). -/
def countOccG (p : Str) : Nat → Str → Nat
  | 0, _ => 0
  | _ + 1, [] => 0
  | fuel + 1, c :: cs =>
    if p.isPrefixOf (c :: cs) then
      1 + countOccG p fuel (cs.drop (p.length - 1))
    else countOccG p fuel cs

def countOcc (p : Str) (s : Str) : Nat := countOccG p (s.length + 1) s

/-- Case-insensitive prefix test (ASCII folding, as JS `/.../i` on these
patterns). -/
def prefixCI : Str → Str → Bool
  | [], _ => true
  | _ :: _, [] => false
  | p :: ps, c :: cs => (p.toLower == c.toLower) && prefixCI ps cs

/-- Case-insensitive containment (JS `/pat/i.test(s)` for a literal). -/
def containsCI (p : Str) : Str → Bool
  | [] => p.isEmpty
  | c :: cs => prefixCI p (c :: cs) || containsCI p cs

/-! ## Generic one-pass global substitution

`gsubG` models one `String.prototype.replace(/…/g, …)` pass: at each
position the matcher is offered the previous character (for lookbehinds),
the replacement state, and the remaining input; a match consumes `k + 1`
characters and emits a replacement; otherwise the scanner copies one
character and moves on.  Matching always happens on the input string, never
on earlier replacements, exactly as in JS. -/
def gsubG {σ : Type} (f : Option Char → σ → Str → Option (Str × Nat × σ)) :
    Nat → Option Char → σ → Str → Str × σ
  | 0, _, st, s => (s, st)
  | _ + 1, _, st, [] => ([], st)
  | fuel + 1, prev, st, c :: cs =>
    match f prev st (c :: cs) with
    | some (rep, k, st') =>
      let lastC := (c :: cs).getD k c
      let (out, st'') := gsubG f fuel (some lastC) st' (cs.drop k)
      (rep ++ out, st'')
    | none =>
      let (out, st'') := gsubG f fuel (some c) st cs
      (c :: out, st'')

/-- Stateless global substitution; the matcher returns the replacement and
the total number of characters consumed (≥ 1). -/
def gsub (m : Str → Option (Str × Nat)) (s : Str) : Str :=
  (gsubG (fun _ _ t => (m t).map fun r => (r.1, r.2 - 1, ())) (s.length + 1)
    none () s).1

/-- Stateless global substitution with lookbehind (previous character). -/
def gsubP (m : Option Char → Str → Option (Str × Nat)) (s : Str) : Str :=
  (gsubG (fun prev _ t => (m prev t).map fun r => (r.1, r.2 - 1, ()))
    (s.length + 1) none () s).1

/-- Stateful global substitution. -/
def gsubSt {σ : Type} (m : σ → Str → Option (Str × Nat × σ)) (st : σ)
    (s : Str) : Str × σ :=
  gsubG (fun _ st t => (m st t).map fun r => (r.1, r.2.1 - 1, r.2.2))
    (s.length + 1) none st s

/-- Stateful global substitution with lookbehind. -/
def gsubStP {σ : Type} (m : Option Char → σ → Str → Option (Str × Nat × σ))
    (st : σ) (s : Str) : Str × σ :=
  gsubG (fun prev st t => (m prev st t).map fun r => (r.1, r.2.1 - 1, r.2.2))
    (s.length + 1) none st s

/-- Non-global substitution (`String.replace` without the `g` flag):
replace only the leftmost match. -/
def subFirstG (m : Str → Option (Str × Nat)) : Nat → Str → Str
  | 0, s => s
  | _ + 1, [] => []
  | fuel + 1, c :: cs =>
    match m (c :: cs) with
    | some (rep, n) => rep ++ cs.drop (n - 1)
    | none => c :: subFirstG m fuel cs

def subFirst (m : Str → Option (Str × Nat)) (s : Str) : Str :=
  subFirstG m (s.length + 1) s

/-- First match of a capturing matcher (`String.match` without `g`). -/
def matchFirstG {α : Type} (m : Str → Option α) : Nat → Str → Option α
  | 0, _ => none
  | _ + 1, [] => none
  | fuel + 1, c :: cs =>
    match m (c :: cs) with
    | some a => some a
    | none => matchFirstG m fuel cs

def matchFirst {α : Type} (m : Str → Option α) (s : Str) : Option α :=
  matchFirstG m (s.length + 1) s

/-- Consume a literal, returning the remainder. -/
def lit (p : Str) (s : Str) : Option Str :=
  if p.isPrefixOf s then some (s.drop p.length) else none

/-- Lazy `[\s\S]*?` up to the first occurrence of `term`:
returns `(content, rest-after-term)`. -/
def lazyML (term : Str) (s : Str) : Option (Str × Str) :=
  (findSub term s).map fun j => (s.take j, s.drop (j + term.length))

/-- Lazy `.*?` (no newline in the content) up to the first occurrence of
`term`. -/
def lazyNoNl (term : Str) (s : Str) : Option (Str × Str) :=
  match findSub term s with
  | none => none
  | some j =>
    if (s.take j).all fun c => c != '\n' then
      some (s.take j, s.drop (j + term.length))
    else none

/-- `\{.*?\}`: an opening brace, lazy no-newline content, closing brace. -/
def braceNoNl (s : Str) : Option (Str × Str) :=
  match s with
  | '{' :: rest => lazyNoNl ['}'] rest
  | _ => none

/-- `\{[\s\S]*?\}`. -/
def braceML (s : Str) : Option (Str × Str) :=
  match s with
  | '{' :: rest => lazyML ['}'] rest
  | _ => none

/-- Backtracking search for a lazy group closed by the single character
`close` and followed by material accepted by the continuation `κ`: the
regex engine tries the candidate closers left to right (lazy), handing the
group's content and the rest to `κ`, until `κ` succeeds.  With `noNl` the
group's content may not contain a newline (`.*?`). -/
def lazyCands {α : Type} (noNl : Bool) (close : Char)
    (κ : Str → Str → Option α) : Nat → Str → Str → Option α
  | 0, _, _ => none
  | _ + 1, _, [] => none
  | fuel + 1, acc, c :: cs =>
    if noNl && c == '\n' then none
    else if c == close then
      match κ acc.reverse cs with
      | some a => some a
      | none => lazyCands noNl close κ fuel (c :: acc) cs
    else lazyCands noNl close κ fuel (c :: acc) cs

/-- Replace every occurrence of character `t` by `rep`. -/
def replChar (t : Char) (rep : Str) (s : Str) : Str :=
  (s.map fun c => if c == t then rep else [c]).flatten

/-- JS `String.prototype.split` on a literal separator (non-overlapping,
leftmost; keeps empty pieces). -/
def splitOnStrG (sep : Str) : Nat → Str → Str → List Str
  | 0, acc, s => [acc.reverse ++ s]
  | _ + 1, acc, [] => [acc.reverse]
  | fuel + 1, acc, c :: cs =>
    if sep.isPrefixOf (c :: cs) then
      acc.reverse :: splitOnStrG sep fuel [] ((c :: cs).drop sep.length)
    else splitOnStrG sep fuel (c :: acc) cs

def splitOnStr (sep : Str) (s : Str) : List Str :=
  splitOnStrG sep (s.length + 1) [] s

/-- ASCII letter (`[a-zA-Z]`). -/
def isAsciiLetter (c : Char) : Bool :=
  ('a' ≤ c && c ≤ 'z') || ('A' ≤ c && c ≤ 'Z')

/-! ## The structural validator (`src/utils/latexValidator.ts`) -/

inductive IssueType
  | error
  | warning
deriving DecidableEq, Repr

/-- `ValidationIssue` of `latexValidator.ts`. -/
structure ValidationIssue where
  type : IssueType
  message : String
deriving DecidableEq, Repr

/-! ### Issue messages (verbatim from the source) -/

def msgMissingDocclass : String := "Missing \\documentclass declaration."
def msgMissingBeginDoc : String := "Missing \\begin\x7bdocument\x7d."
def msgMissingEndDoc : String := "Missing \\end\x7bdocument\x7d."
def msgClosingBrace : String :=
  "Found closing brace \"\x7d\" without matching opening brace."
def msgUnclosedBraces (d : Int) : String :=
  "Found " ++ toString d ++ " unclosed brace(s) \"\x7b\"."
def msgExtraEnd (name : Str) : String :=
  "Extra \\end\x7b" ++ String.mk name ++ "\x7d found."
def msgEnvMismatch (expected found : Str) : String :=
  "Environment mismatch: Expected \\end\x7b" ++ String.mk expected ++
    "\x7d but found \\end\x7b" ++ String.mk found ++ "\x7d."
def msgUnclosedEnv (name : Str) : String :=
  "Unclosed environment: \\begin\x7b" ++ String.mk name ++ "\x7d."
def msgForbidden : String :=
  "Forbidden \\includegraphics command — images are not supported."
def msgOddDollar : String :=
  "Odd number of inline math delimiters ($) — possible unclosed math expression."
def msgBracketMismatch (o c : Nat) : String :=
  "Mismatched display math delimiters: " ++ toString o ++ " \\[ vs " ++
    toString c ++ " \\]."
def msgParenMismatch (o c : Nat) : String :=
  "Mismatched inline math delimiters: " ++ toString o ++ " \\( vs " ++
    toString c ++ " \\)."
def msgMathOutside (fs : List String) : String :=
  "Math commands used outside math mode: " ++
    String.intercalate ", " (fs.take 5) ++
    (if fs.length > 5 then "..." else "") ++
    ". Wrap in $...$ or \\[...\\]."

/-! ### Check 1: required declarations -/

def declIssues (l : Str) : List ValidationIssue :=
  (if containsSub "\\documentclass".data l then []
   else [⟨.error, msgMissingDocclass⟩]) ++
  (if containsSub "\\begin\x7bdocument\x7d".data l then []
   else [⟨.error, msgMissingBeginDoc⟩]) ++
  (if containsSub "\\end\x7bdocument\x7d".data l then []
   else [⟨.error, msgMissingEndDoc⟩])

/-! ### Check 2: brace balance

The loop mirrors `for (let i = 0; i < latex.length; i++)` with
`isEscaped = i > 0 && latex[i-1] === '\\' && (i === 1 || latex[i-2] !== '\\')`,
incrementing/decrementing on unescaped braces and breaking as soon as the
depth goes negative. -/

inductive BraceOutcome
  | negative
  | done (depth : Int)
deriving DecidableEq, Repr

def braceEscaped (l : Str) (i : Nat) : Bool :=
  (i != 0) && (l.get? (i - 1) == some '\\') &&
    ((i == 1) || (l.get? (i - 2) != some '\\'))

def braceLoop (l : Str) : Nat → Nat → Int → BraceOutcome
  | 0, _, d => .done d
  | fuel + 1, i, d =>
    match l.get? i with
    | none => .done d
    | some c =>
      let esc := braceEscaped l i
      let d' :=
        if !esc && c == '{' then d + 1
        else if !esc && c == '}' then d - 1
        else d
      if d' < 0 then .negative else braceLoop l fuel (i + 1) d'

def braceOutcomeOf (l : Str) : BraceOutcome := braceLoop l (l.length + 1) 0 0

def braceIssues (l : Str) : List ValidationIssue :=
  match braceOutcomeOf l with
  | .negative => [⟨.error, msgClosingBrace⟩]
  | .done d => if d > 0 then [⟨.error, msgUnclosedBraces d⟩] else []

/-- Depth of the brace counter after scanning the first `i` characters with
the same escape heuristic and no early exit. -/
def braceDepthPref (l : Str) : Nat → Int
  | 0 => 0
  | i + 1 =>
    let d := braceDepthPref l i
    match l.get? i with
    | none => d
    | some c =>
      let esc := braceEscaped l i
      if !esc && c == '{' then d + 1
      else if !esc && c == '}' then d - 1
      else d

/-! ### Check 3: environment nesting -/

structure EnvTok where
  isBegin : Bool
  name : Str
  idx : Nat
deriving DecidableEq, Repr

/-- Match `\(begin|end)\s*\{([^}]+)\}` at the head of `s`; returns the
token kind, the captured name and the length of the match. -/
def envTokAt (s : Str) : Option (Bool × Str × Nat) :=
  match s with
  | '\\' :: rest =>
    let tryKw := fun (kw : Str) =>
      match lit kw rest with
      | none => none
      | some r1 =>
        let ws := r1.takeWhile jsSpace
        let r2 := r1.drop ws.length
        match r2 with
        | '{' :: r3 =>
          let nm := r3.takeWhile fun c => c != '}'
          if nm.isEmpty then none
          else
            match r3.drop nm.length with
            | '}' :: _ =>
              some (nm, 1 + kw.length + ws.length + 1 + nm.length + 1)
            | _ => none
        | _ => none
    match tryKw "begin".data with
    | some (nm, n) => some (true, nm, n)
    | none =>
      match tryKw "end".data with
      | some (nm, n) => some (false, nm, n)
      | none => none
  | _ => none

def envScan : Nat → Nat → Str → List EnvTok
  | 0, _, _ => []
  | _ + 1, _, [] => []
  | fuel + 1, i, c :: cs =>
    match envTokAt (c :: cs) with
    | some (b, nm, n) => ⟨b, nm, i⟩ :: envScan fuel (i + n) ((c :: cs).drop n)
    | none => envScan fuel (i + 1) cs

def envTokensOf (l : Str) : List EnvTok := envScan (l.length + 1) 0 l

structure EnvFrame where
  name : Str
  index : Nat
deriving DecidableEq, Repr

/-- One step of the `while ((match = envRegex.exec(latex)) !== null)` loop;
the stack's head is its top (the end of the JS array). -/
def envStep (acc : List ValidationIssue × List EnvFrame) (t : EnvTok) :
    List ValidationIssue × List EnvFrame :=
  if t.isBegin then (acc.1, ⟨t.name, t.idx⟩ :: acc.2)
  else
    match acc.2 with
    | [] => (acc.1 ++ [⟨.error, msgExtraEnd t.name⟩], [])
    | top :: rest =>
      if top.name = t.name then (acc.1, rest)
      else (acc.1 ++ [⟨.error, msgEnvMismatch top.name t.name⟩], top :: rest)

def envIssuesTok (ts : List EnvTok) : List ValidationIssue :=
  let r := ts.foldl envStep ([], [])
  r.1 ++ r.2.reverse.map fun f => ⟨.error, msgUnclosedEnv f.name⟩

def envIssuesOf (l : Str) : List ValidationIssue := envIssuesTok (envTokensOf l)

/-! ### Check 4: forbidden command -/

def forbiddenIssues (l : Str) : List ValidationIssue :=
  if containsCI "\\includegraphics".data l then [⟨.error, msgForbidden⟩] else []

/-! ### Check 5: math delimiters -/

/-- Delete `o [\s\S]*? c` (lazy), e.g. `\$\$[\s\S]*?\$\$`. -/
def mPairDel (o c : Str) (s : Str) : Option (Str × Nat) :=
  match lit o s with
  | none => none
  | some r => (findSub c r).map fun j => ([], o.length + j + c.length)

def strippedForDollar (l : Str) : Str :=
  let s1 := gsub (mPairDel "$$".data "$$".data) l
  let s2 := gsub (mPairDel "\\[".data "\\]".data) s1
  gsub (mPairDel "\\(".data "\\)".data) s2

/-- Count of `(?<!\$)(?<!\\)\$(?!\$)` matches. -/
def singleDollarCount : Option Char → Str → Nat
  | _, [] => 0
  | prev, c :: cs =>
    (if c == '$' && prev != some '$' && prev != some '\\' &&
        cs.head? != some '$' then 1 else 0) +
      singleDollarCount (some c) cs

def dollarIssues (l : Str) : List ValidationIssue :=
  if (singleDollarCount none (strippedForDollar l)) % 2 != 0 then
    [⟨.warning, msgOddDollar⟩]
  else []

def openBracketCount (l : Str) : Nat := countOcc "\\[".data l
def closeBracketCount (l : Str) : Nat := countOcc "\\]".data l
def openParenCount (l : Str) : Nat := countOcc "\\(".data l
def closeParenCount (l : Str) : Nat := countOcc "\\)".data l

def displayIssues (l : Str) : List ValidationIssue :=
  if openBracketCount l != closeBracketCount l then
    [⟨.warning, msgBracketMismatch (openBracketCount l) (closeBracketCount l)⟩]
  else []

def parenIssues (l : Str) : List ValidationIssue :=
  if openParenCount l != closeParenCount l then
    [⟨.warning, msgParenMismatch (openParenCount l) (closeParenCount l)⟩]
  else []

/-! ### Check 6: math commands outside math mode -/

/-- Replace `(?<!\\)\$[^$\n]+?(?<!\\)\$` by a space. -/
def mSingleDollarSpan (prev : Option Char) (s : Str) : Option (Str × Nat) :=
  match s with
  | '$' :: rest =>
    if prev == some '\\' then none
    else
      match rest.findIdx? fun c => c == '$' with
      | none => none
      | some j =>
        if j == 0 then none
        else if !((rest.take j).all fun c => c != '\n') then none
        else if rest.get? (j - 1) == some '\\' then none
        else some ([' '], 1 + j + 1)
  | _ => none

/-- Delete `o [\s\S]*? c` replacing with one space. -/
def mPairSpace (o c : Str) (s : Str) : Option (Str × Nat) :=
  match lit o s with
  | none => none
  | some r => (findSub c r).map fun j => ([' '], o.length + j + c.length)

def mathEnvNamesValidator : List Str :=
  ["equation".data, "align".data, "gather".data, "math".data,
   "displaymath".data, "multline".data]

/-- Replace
`\begin\{(equation|align|gather|math|displaymath|multline)\*?\}[\s\S]*?\end\{\1\*?\}`
by a space (the closing star is independent of the opening one). -/
def mMathEnvSpace (s : Str) : Option (Str × Nat) :=
  match lit "\\begin\x7b".data s with
  | none => none
  | some r =>
    match mathEnvNamesValidator.find? fun nm => nm.isPrefixOf r with
    | none => none
    | some nm =>
      let r2 := r.drop nm.length
      let afterOpen : Option Str :=
        match r2 with
        | '*' :: '}' :: t => some t
        | '}' :: t => some t
        | _ => none
      match afterOpen with
      | none => none
      | some body =>
        let endPlain := "\\end\x7b".data ++ nm ++ "\x7d".data
        let endStar := "\\end\x7b".data ++ nm ++ "*\x7d".data
        let cand :=
          match findSub endPlain body, findSub endStar body with
          | none, none => none
          | some j, none => some (j, endPlain.length)
          | none, some j => some (j, endStar.length)
          | some j1, some j2 =>
            if j1 ≤ j2 then some (j1, endPlain.length)
            else some (j2, endStar.length)
        cand.map fun jc =>
          ([' '], s.length - body.length + jc.1 + jc.2)

def nonMathOf (l : Str) : Str :=
  let s1 := gsub (mPairSpace "$$".data "$$".data) l
  let s2 := gsubP mSingleDollarSpan s1
  let s3 := gsub (mPairSpace "\\[".data "\\]".data) s2
  let s4 := gsub (mPairSpace "\\(".data "\\)".data) s3
  gsub mMathEnvSpace s4

def mathCommands : List String :=
  ["\\frac", "\\sum", "\\int", "\\prod", "\\lim", "\\sqrt", "\\alpha",
   "\\beta", "\\gamma", "\\delta", "\\epsilon", "\\theta", "\\lambda",
   "\\mu", "\\sigma", "\\omega", "\\pi", "\\infty", "\\partial", "\\nabla",
   "\\rightarrow", "\\leftarrow", "\\Rightarrow", "\\Leftarrow", "\\leq",
   "\\geq", "\\neq", "\\approx", "\\cdot", "\\times", "\\div"]

/-- `new RegExp(escaped + '(?![a-zA-Z])').test(nonMath)`. -/
def cmdFoundIn (cmd : Str) : Str → Bool
  | [] => false
  | c :: cs =>
    (cmd.isPrefixOf (c :: cs) &&
      !(isAsciiLetter ((c :: cs).getD cmd.length ' '))) ||
    cmdFoundIn cmd cs

def foundOutside (l : Str) : List String :=
  mathCommands.filter fun c => cmdFoundIn c.data (nonMathOf l)

def mathOutIssues (l : Str) : List ValidationIssue :=
  match foundOutside l with
  | [] => []
  | fs => [⟨.warning, msgMathOutside fs⟩]

/-! ### The validator -/

def validateLatexL (l : Str) : List ValidationIssue :=
  declIssues l ++ braceIssues l ++ envIssuesOf l ++ forbiddenIssues l ++
    dollarIssues l ++ displayIssues l ++ parenIssues l ++ mathOutIssues l

/-- `validateLatex` of `latexValidator.ts` (`if (!latex) return issues`
models the falsy empty string). -/
def validateLatex (latex : String) : List ValidationIssue :=
  if latex.data.isEmpty then [] else validateLatexL latex.data

/-! ### Instrumented validator

`validateLatexE` is the twin of `validateLatex` in which every guarded
character access of the brace scan (`latex[i]`, `latex[i-1]`, `latex[i-2]`,
the only indexed reads of the source) is strict: reading out of bounds is
an `Except.error` instead of a defaulted value.  Claim C8 is that the
error branches are unreachable, i.e. that the twin always returns
`Except.ok` of the plain result. -/

def charAtE (l : Str) (i : Nat) : Except String Char :=
  match l.get? i with
  | some c => .ok c
  | none => .error "string index out of bounds"

/-- The strict escape test: each guarded character read is an
`Except`-level access. -/
def braceEscapedE (l : Str) (i : Nat) : Except String Bool :=
  if i != 0 then
    match charAtE l (i - 1) with
    | .error e => .error e
    | .ok p1 =>
      if p1 == '\\' then
        if i == 1 then .ok true
        else
          match charAtE l (i - 2) with
          | .error e => .error e
          | .ok p2 => .ok (p2 != '\\')
      else .ok false
  else .ok false

def braceLoopE (l : Str) : Nat → Nat → Int → Except String BraceOutcome
  | 0, _, d => .ok (.done d)
  | fuel + 1, i, d =>
    if i < l.length then
      match charAtE l i with
      | .error e => .error e
      | .ok c =>
        match braceEscapedE l i with
        | .error e => .error e
        | .ok esc =>
          let d' :=
            if !esc && c == '{' then d + 1
            else if !esc && c == '}' then d - 1
            else d
          if d' < 0 then .ok .negative else braceLoopE l fuel (i + 1) d'
    else .ok (.done d)

def validateLatexE (latex : String) : Except String (List ValidationIssue) :=
  if latex.data.isEmpty then .ok []
  else do
    let l := latex.data
    let b ← braceLoopE l (l.length + 1) 0 0
    let braceIss : List ValidationIssue :=
      match b with
      | .negative => [⟨.error, msgClosingBrace⟩]
      | .done d => if d > 0 then [⟨.error, msgUnclosedBraces d⟩] else []
    pure (declIssues l ++ braceIss ++ envIssuesOf l ++ forbiddenIssues l ++
      dollarIssues l ++ displayIssues l ++ parenIssues l ++ mathOutIssues l)

/-! ## `countWords` (`src/utils/latexToHtml.ts`) -/

/-- `\\begin\{.*?\}|\\end\{.*?\}` (delete). -/
def mBeginEndDel (s : Str) : Option (Str × Nat) :=
  match lit "\\begin".data s with
  | some r =>
    match braceNoNl r with
    | some p => some ([], s.length - p.2.length)
    | none =>
      match lit "\\end".data s with
      | some r2 => (braceNoNl r2).map fun p => ([], s.length - p.2.length)
      | none => none
  | none =>
    match lit "\\end".data s with
    | some r2 => (braceNoNl r2).map fun p => ([], s.length - p.2.length)
    | none => none

/-- Parse `(\{[^}]*\})+` greedily, returning the last group's content and
the remainder. -/
def braceGroupsPlus : Nat → Str → Option (Str × Str)
  | 0, _ => none
  | fuel + 1, s =>
    match s with
    | '{' :: r =>
      let content := r.takeWhile fun c => c != '}'
      match r.drop content.length with
      | '}' :: rest =>
        match braceGroupsPlus fuel rest with
        | some p => some p
        | none => some (content, rest)
      | _ => none
    | _ => none

/-- `\\[a-zA-Z]+\*?(\{[^}]*\})+` replaced by the last group's text with its
braces stripped (`(m, g) => g.replace(/[{}]/g, '')`). -/
def mCmdWithArgs (s : Str) : Option (Str × Nat) :=
  match s with
  | '\\' :: r =>
    let ls := r.takeWhile isAsciiLetter
    if ls.isEmpty then none
    else
      let r2 := r.drop ls.length
      let r3 := match r2 with
        | '*' :: t => t
        | _ => r2
      match braceGroupsPlus (r3.length + 1) r3 with
      | some (content, rest) =>
        some (content.filter fun c => c != '{' && c != '}',
          s.length - rest.length)
      | none => none
  | _ => none

/-- `\\[a-zA-Z]+` (delete). -/
def mBareCmd (s : Str) : Option (Str × Nat) :=
  match s with
  | '\\' :: r =>
    let ls := r.takeWhile isAsciiLetter
    if ls.isEmpty then none else some ([], 1 + ls.length)
  | _ => none

/-- `[\\{}$%&_^~#\[\]]` (delete). -/
def latexSpecialChar (c : Char) : Bool :=
  c == '\\' || c == '{' || c == '}' || c == '$' || c == '%' || c == '&' ||
  c == '_' || c == '^' || c == '~' || c == '#' || c == '[' || c == ']'

/-- `\s+` collapsed to a single space. -/
def mWsCollapse (s : Str) : Option (Str × Nat) :=
  match s with
  | c :: cs =>
    if jsSpace c then some ([' '], 1 + (cs.takeWhile jsSpace).length) else none
  | [] => none

/-- Number of maximal non-whitespace runs; on a trimmed string this equals
JS `s.split(/\s+/).length`. -/
def wsTokenCount : Bool → Str → Nat
  | _, [] => 0
  | inTok, c :: cs =>
    if jsSpace c then wsTokenCount false cs
    else (if inTok then 0 else 1) + wsTokenCount true cs

/-- `countWords` of `latexToHtml.ts`. -/
def countWords (latex : String) : Nat :=
  let s1 := gsub mBeginEndDel latex.data
  let s2 := gsub mCmdWithArgs s1
  let s3 := gsub mBareCmd s2
  let s4 := s3.filter fun c => !latexSpecialChar c
  let s5 := jsTrim (gsub mWsCollapse s4)
  if s5.isEmpty then 0 else wsTokenCount false s5

/-! ## `restoreMath` (`src/utils/latexToHtml.ts`) -/

/-- Match `__MTH_\d+__` at the head of `s`, returning the token and the
rest.  (`\d+` is greedy; since a digit cannot also start the closing
`__`, the maximal digit run is the only candidate.) -/
def mthTokAt (s : Str) : Option (Str × Str) :=
  match lit "__MTH_".data s with
  | none => none
  | some r =>
    let ds := r.takeWhile fun c => c.isDigit
    if ds.isEmpty then none
    else if "__".data.isPrefixOf (r.drop ds.length) then
      some ("__MTH_".data ++ ds ++ "__".data, (r.drop ds.length).drop 2)
    else none

/-- Association-list lookup, modelling JS object property access. -/
def lookupStr (m : List (String × String)) (k : String) : Option String :=
  (m.find? fun p => p.1 == k).map fun p => p.2

/-- `html.replace(/__MTH_\d+__/g, m => mathMap[m] || m)`: note `|| m` also
fires when the stored value is the (falsy) empty string. -/
def restoreGo (map : List (String × String)) : Nat → Str → Str
  | 0, s => s
  | _ + 1, [] => []
  | fuel + 1, c :: cs =>
    match mthTokAt (c :: cs) with
    | some (tok, rest) =>
      (match lookupStr map (String.mk tok) with
       | some v => if v.isEmpty then tok else v.data
       | none => tok) ++ restoreGo map fuel rest
    | none => c :: restoreGo map fuel cs

/-- `restoreMath` of `latexToHtml.ts`. -/
def restoreMath (html : String) (mathMap : List (String × String)) : String :=
  String.mk (restoreGo mathMap html.data.length html.data)

/-! ## `convertLatexToHtml` (`src/utils/latexToHtml.ts`)

The converter is a strictly ordered chain of `replace` passes over the
working string, threading the block/math placeholder tables and the
footnote counter. -/

structure LatexConvertResult where
  html : String
  mathMap : List (String × String)
deriving DecidableEq, Repr

structure ConvSt where
  blocks : List (String × String)
  blockN : Nat
  mathMap : List (String × String)
  mathN : Nat
  fnN : Nat
deriving Repr

/-- `addBlock`: mint a `__BLK_n__` key, record the HTML, and return the
text spliced into the stream (`\n\n__BLK_n__\n\n`). -/
def addBlock (html : String) (st : ConvSt) : Str × ConvSt :=
  let k := "__BLK_" ++ toString st.blockN ++ "__"
  ("\n\n".data ++ k.data ++ "\n\n".data,
   { st with blocks := st.blocks ++ [(k, html)], blockN := st.blockN + 1 })

/-- `storeMath`: mint a `__MTH_n__` key and record the raw math source. -/
def storeMath (m : Str) (st : ConvSt) : String × ConvSt :=
  let k := "__MTH_" ++ toString st.mathN ++ "__"
  (k,
   { st with mathMap := st.mathMap ++ [(k, String.mk m)], mathN := st.mathN + 1 })

/-! ### Preamble stripping -/

/-- Delete a literal. -/
def mLitDel (p : Str) (s : Str) : Option (Str × Nat) :=
  if p.isPrefixOf s then some ([], p.length) else none

/-- `kw` followed by `n` lazy no-newline brace groups, deleted. -/
def chainBraces : Nat → Str → Option Str
  | 0, r => some r
  | n + 1, r => (braceNoNl r).bind fun p => chainBraces n p.2

def mLitBracesDel (kw : Str) (n : Nat) (s : Str) : Option (Str × Nat) :=
  (lit kw s).bind fun r =>
    (chainBraces n r).map fun rest => (([] : Str), s.length - rest.length)

/-- `kw(?:\[.*?\])?\{.*?\}`, deleted (with regex backtracking over the
optional bracket group tried first, as the greedy `(?:…)?` does). -/
def mOptBrackBraceDel (kw : Str) (s : Str) : Option (Str × Nat) :=
  (lit kw s).bind fun r =>
    let noGroup : Option (Str × Nat) :=
      (braceNoNl r).map fun p => (([] : Str), s.length - p.2.length)
    match r with
    | '[' :: r2 =>
      match lazyCands true ']' (fun _ r3 => (braceNoNl r3).map fun p => p.2)
          (r2.length + 1) [] r2 with
      | some rest => some ([], s.length - rest.length)
      | none => noGroup
    | _ => noGroup

/-- `kw\{.*?\}(?:\[\d+\])?\{[\s\S]*?\}`, deleted
(`\newcommand` / `\renewcommand`). -/
def mNewcommandDel (kw : Str) (s : Str) : Option (Str × Nat) :=
  (lit kw s).bind fun r =>
    match r with
    | '{' :: r2 =>
      let afterG1 := fun (_ : Str) (r3 : Str) =>
        let withOpt : Option Str :=
          match r3 with
          | '[' :: r4 =>
            let ds := r4.takeWhile fun c => c.isDigit
            if ds.isEmpty then none
            else
              match r4.drop ds.length with
              | ']' :: r5 => (braceML r5).map fun p => p.2
              | _ => none
          | _ => none
        match withOpt with
        | some rest => some rest
        | none => (braceML r3).map fun p => p.2
      (lazyCands true '}' afterG1 (r2.length + 1) [] r2).map fun rest =>
        (([] : Str), s.length - rest.length)
    | _ => none

/-! ### Math protection -/

def mDollarBlock (st : ConvSt) (s : Str) : Option (Str × Nat × ConvSt) :=
  match s with
  | '$' :: '$' :: r =>
    match findSub "$$".data r with
    | some j =>
      let n := 2 + j + 2
      let (key, st1) := storeMath (s.take n) st
      let (rep, st2) := addBlock key st1
      some (rep, n, st2)
    | none => none
  | _ => none

def mBracketBlock (st : ConvSt) (s : Str) : Option (Str × Nat × ConvSt) :=
  (lit "\\[".data s).bind fun r =>
    (findSub "\\]".data r).map fun j =>
      let n := 2 + j + 2
      let (key, st1) := storeMath (s.take n) st
      let (rep, st2) := addBlock key st1
      (rep, n, st2)

def convMathEnvNames : List Str :=
  ["align".data, "equation".data, "gather".data, "multline".data]

/-- `\begin\{(align\*?|equation\*?|gather\*?|multline\*?)\}[\s\S]*?\end\{\1\}`;
the captured group includes the star, so the closing tag must carry the
same star. -/
def mMathEnvBlock (st : ConvSt) (s : Str) : Option (Str × Nat × ConvSt) :=
  (lit "\\begin\x7b".data s).bind fun r =>
    (convMathEnvNames.find? fun nm => nm.isPrefixOf r).bind fun nm =>
      let r2 := r.drop nm.length
      let opened : Option (Str × Str) :=
        match r2 with
        | '*' :: '}' :: body => some (nm ++ ['*'], body)
        | '}' :: body => some (nm, body)
        | _ => none
      opened.bind fun gb =>
        let endTag := "\\end\x7b".data ++ gb.1 ++ "\x7d".data
        (findSub endTag gb.2).map fun j =>
          let n := s.length - gb.2.length + j + endTag.length
          let (key, st1) := storeMath (s.take n) st
          let (rep, st2) := addBlock key st1
          (rep, n, st2)

def mParenMath (st : ConvSt) (s : Str) : Option (Str × Nat × ConvSt) :=
  (lit "\\(".data s).bind fun r =>
    (findSub "\\)".data r).map fun j =>
      let n := 2 + j + 2
      let (key, st1) := storeMath (s.take n) st
      (key.data, n, st1)

/-- `(?<!\\)\$([^\$\n]+?)(?<!\\)\$`, protected into the math table. -/
def mInlineDollar (prev : Option Char) (st : ConvSt) (s : Str) :
    Option (Str × Nat × ConvSt) :=
  match s with
  | '$' :: rest =>
    if prev == some '\\' then none
    else
      match rest.findIdx? fun c => c == '$' with
      | none => none
      | some j =>
        if j == 0 then none
        else if !((rest.take j).all fun c => c != '\n') then none
        else if rest.get? (j - 1) == some '\\' then none
        else
          let n := 1 + j + 1
          let (key, st1) := storeMath (s.take n) st
          some (key.data, n, st1)
  | _ => none

/-! ### Title / author / date -/

/-- First match of `kw\{([\s\S]*?)\}`, returning the group. -/
def capFirstML (kw : Str) (l : Str) : Option Str :=
  matchFirst
    (fun s =>
      (lit kw s).bind fun r =>
        match r with
        | '{' :: r2 => (lazyML ['}'] r2).map fun p => p.1
        | _ => none)
    l

/-- Delete `kw\{[\s\S]*?\}`. -/
def mCmdCapMLDel (kw : Str) (s : Str) : Option (Str × Nat) :=
  (lit kw s).bind fun r =>
    match r with
    | '{' :: r2 =>
      (lazyML ['}'] r2).map fun p => (([] : Str), s.length - p.2.length)
    | _ => none

def headerHtml (t a d : Option Str) : String :=
  if t.isSome || a.isSome || d.isSome then
    "<div style=\"margin-bottom:2.5rem;text-align:center;padding-bottom:1.5rem;border-bottom:1px solid var(--p-border)\">" ++
    (match t with
     | some c =>
       "<h1 style=\"font-size:1.875rem;font-weight:600;color:var(--p-head);margin-bottom:0.75rem;letter-spacing:-0.025em;font-family:\x27Space Grotesk\x27,sans-serif\">" ++
         String.mk c ++ "</h1>"
     | none => "") ++
    (match a with
     | some c =>
       "<p style=\"font-size:0.875rem;color:var(--p-accent)\">" ++
         String.mk c ++ "</p>"
     | none => "") ++
    (match d with
     | some c =>
       "<p style=\"font-size:0.75rem;color:var(--p-muted);margin-top:0.375rem\">" ++
         String.mk c ++ "</p>"
     | none => "") ++
    "</div>"
  else ""

/-! ### Inline formatting -/

/-- `kw\{(.*?)\}` rewritten to `pre ++ $1 ++ post`. -/
def mWrap1 (kw : Str) (pre post : String) (s : Str) : Option (Str × Nat) :=
  (lit kw s).bind fun r =>
    match r with
    | '{' :: r2 =>
      (lazyNoNl ['}'] r2).map fun p =>
        (pre.data ++ p.1 ++ post.data, s.length - p.2.length)
    | _ => none

def mHref (s : Str) : Option (Str × Nat) :=
  (lit "\\href".data s).bind fun r =>
    match r with
    | '{' :: r2 =>
      lazyCands true '}'
        (fun g1 afterG1 =>
          match afterG1 with
          | '{' :: r3 =>
            (lazyNoNl ['}'] r3).map fun p =>
              ("<a href=\"".data ++ g1 ++
                "\" target=\"_blank\" rel=\"noopener\" style=\"color:var(--p-accent);text-decoration:underline;text-underline-offset:2px\">".data ++
                p.1 ++ "</a>".data,
               s.length - p.2.length)
          | _ => none)
        (r2.length + 1) [] r2
    | _ => none

def mUrl (s : Str) : Option (Str × Nat) :=
  (lit "\\url".data s).bind fun r =>
    match r with
    | '{' :: r2 =>
      (lazyNoNl ['}'] r2).map fun p =>
        ("<a href=\"".data ++ p.1 ++
          "\" target=\"_blank\" rel=\"noopener\" style=\"color:var(--p-accent);font-family:\x27JetBrains Mono\x27,monospace;font-size:0.85em\">".data ++
          p.1 ++ "</a>".data,
         s.length - p.2.length)
    | _ => none

def mFootnote (st : ConvSt) (s : Str) : Option (Str × Nat × ConvSt) :=
  (lit "\\footnote".data s).bind fun r =>
    match r with
    | '{' :: r2 =>
      (lazyNoNl ['}'] r2).map fun p =>
        let fn := st.fnN + 1
        ("<sup style=\"color:var(--p-accent);cursor:help;font-size:0.75em\" title=\"".data ++
          replChar '"' "&quot;".data p.1 ++ "\">[".data ++
          (toString fn).data ++ "]</sup>".data,
         s.length - p.2.length, { st with fnN := fn })
    | _ => none

/-! ### Sections -/

/-- `kw\*?\{(.*?)\}` turned into a placeholder-protected heading block. -/
def mSection (kw : Str) (pre post : String) (st : ConvSt) (s : Str) :
    Option (Str × Nat × ConvSt) :=
  (lit kw s).bind fun r =>
    let opened : Option Str :=
      match r with
      | '*' :: '{' :: t => some t
      | '{' :: t => some t
      | _ => none
    opened.bind fun r2 =>
      (lazyNoNl ['}'] r2).map fun p =>
        let (rep, st') := addBlock (pre ++ String.mk p.1 ++ post) st
        (rep, s.length - p.2.length, st')

/-! ### Verbatim, listings, quotes -/

def preHtml (c : Str) : String :=
  "<pre style=\"background:var(--p-code);border:1px solid var(--p-border);border-radius:8px;padding:1rem;overflow-x:auto;margin:1.25rem 0\"><code style=\"font-family:\x27JetBrains Mono\x27,monospace;font-size:0.8rem;color:var(--p-text);line-height:1.6\">" ++
    String.mk (replChar '>' "&gt;".data (replChar '<' "&lt;".data c)) ++
    "</code></pre>"

def mVerbatim (st : ConvSt) (s : Str) : Option (Str × Nat × ConvSt) :=
  (lit "\\begin\x7bverbatim\x7d".data s).bind fun r =>
    (lazyML "\\end\x7bverbatim\x7d".data r).map fun p =>
      let (rep, st') := addBlock (preHtml p.1) st
      (rep, s.length - p.2.length, st')

def mLstlisting (st : ConvSt) (s : Str) : Option (Str × Nat × ConvSt) :=
  (lit "\\begin\x7blstlisting\x7d".data s).bind fun r =>
    let bodySearch := fun (r' : Str) =>
      lazyML "\\end\x7blstlisting\x7d".data r'
    let attempt : Option (Str × Str) :=
      match r with
      | '[' :: r2 =>
        match lazyCands false ']' (fun _ r3 => bodySearch r3)
            (r2.length + 1) [] r2 with
        | some p => some p
        | none => bodySearch r
      | _ => bodySearch r
    attempt.map fun p =>
      let (rep, st') := addBlock (preHtml p.1) st
      (rep, s.length - p.2.length, st')

/-- `\begin\{(?:quote|quotation)\}([\s\S]*?)\end\{(?:quote|quotation)\}`
(the two names are matched independently). -/
def mQuote (st : ConvSt) (s : Str) : Option (Str × Nat × ConvSt) :=
  let opener : Option Str :=
    match lit "\\begin\x7bquote\x7d".data s with
    | some r => some r
    | none => lit "\\begin\x7bquotation\x7d".data s
  opener.bind fun r =>
    let e1 := "\\end\x7bquote\x7d".data
    let e2 := "\\end\x7bquotation\x7d".data
    let cand : Option (Nat × Nat) :=
      match findSub e1 r, findSub e2 r with
      | none, none => none
      | some j, none => some (j, e1.length)
      | none, some j => some (j, e2.length)
      | some j1, some j2 =>
        if j1 ≤ j2 then some (j1, e1.length) else some (j2, e2.length)
    cand.map fun jc =>
      let c := r.take jc.1
      let (rep, st') := addBlock
        ("<blockquote style=\"border-left:3px solid var(--p-accent);margin:1.25rem 0;padding:0.75rem 1.25rem;color:var(--p-sec);font-style:italic;background:var(--p-code);border-radius:0 8px 8px 0\">" ++
          String.mk (jsTrim c) ++ "</blockquote>") st
      (rep, s.length - r.length + jc.1 + jc.2, st')

/-! ### Tables -/

def mClineDel (s : Str) : Option (Str × Nat) :=
  (lit "\\cline".data s).bind fun r =>
    (braceNoNl r).map fun p => (([] : Str), s.length - p.2.length)

def mRulesDel (s : Str) : Option (Str × Nat) :=
  match mLitDel "\\toprule".data s with
  | some p => some p
  | none =>
    match mLitDel "\\midrule".data s with
    | some p => some p
    | none => mLitDel "\\bottomrule".data s

def thStyle : String :=
  "padding:0.5rem 0.75rem;font-weight:600;color:var(--p-head);border-bottom:2px solid var(--p-border);text-align:left;font-size:0.8rem"
def tdStyle : String :=
  "padding:0.5rem 0.75rem;color:var(--p-sec);border-bottom:1px solid var(--p-border);font-size:0.8rem"

/-- `convertTabular` of `latexToHtml.ts`. -/
def convertTabular (content : Str) (captionHtml : String) : String :=
  let r1 := gsub (mLitDel "\\hline".data) content
  let r2 := gsub mClineDel r1
  let r3 := gsub mRulesDel r2
  let rows := ((splitOnStr "\\\\".data r3).map jsTrim).filter fun r =>
    !r.isEmpty
  let tableRows := String.join <| rows.enum.map fun ir =>
    let cells := (splitOnStr "&".data ir.2).map jsTrim
    let tag := if ir.1 == 0 then "th" else "td"
    let style := if ir.1 == 0 then thStyle else tdStyle
    "<tr>" ++
      (String.join <| cells.map fun c =>
        "<" ++ tag ++ " style=\"" ++ style ++ "\">" ++ String.mk c ++
          "</" ++ tag ++ ">") ++
      "</tr>"
  "<div style=\"overflow-x:auto;margin:1.25rem 0\"><table style=\"width:100%;border-collapse:collapse;border:1px solid var(--p-border);border-radius:8px;overflow:hidden\">" ++
    captionHtml ++ "<tbody>" ++ tableRows ++ "</tbody></table></div>"

/-- Inner `content.match(/\\begin\{tabular\}\{.*?\}([\s\S]*?)\\end\{tabular\}/)`. -/
def mTabularInnerCap (t : Str) : Option Str :=
  (lit "\\begin\x7btabular\x7d".data t).bind fun tr =>
    match tr with
    | '{' :: t2 =>
      lazyCands true '}'
        (fun _ t3 => (lazyML "\\end\x7btabular\x7d".data t3).map fun p => p.1)
        (t2.length + 1) [] t2
    | _ => none

def captionHtmlOf (content : Str) : String :=
  match matchFirst
      (fun t =>
        (lit "\\caption".data t).bind fun tr =>
          match tr with
          | '{' :: t2 => (lazyNoNl ['}'] t2).map fun p => p.1
          | _ => none)
      content with
  | some c =>
    "<caption style=\"caption-side:bottom;padding:0.5rem;font-size:0.75rem;color:var(--p-muted);font-style:italic\">" ++
      String.mk c ++ "</caption>"
  | none => ""

def mTable (st : ConvSt) (s : Str) : Option (Str × Nat × ConvSt) :=
  (lit "\\begin\x7btable\x7d".data s).bind fun r =>
    let bodySearch := fun (r' : Str) => lazyML "\\end\x7btable\x7d".data r'
    let attempt : Option (Str × Str) :=
      match r with
      | '[' :: r2 =>
        match lazyCands true ']' (fun _ r3 => bodySearch r3)
            (r2.length + 1) [] r2 with
        | some p => some p
        | none => bodySearch r
      | _ => bodySearch r
    attempt.map fun p =>
      let content := p.1
      let capHtml := captionHtmlOf content
      let html :=
        match matchFirst mTabularInnerCap content with
        | none =>
          "<div style=\"margin:1.25rem 0\">" ++ String.mk content ++ "</div>"
        | some inner => convertTabular inner capHtml
      let (rep, st') := addBlock html st
      (rep, s.length - p.2.length, st')

def mTabularBlock (st : ConvSt) (s : Str) : Option (Str × Nat × ConvSt) :=
  (lit "\\begin\x7btabular\x7d".data s).bind fun r =>
    match r with
    | '{' :: r2 =>
      (lazyCands true '}'
        (fun _ r3 => lazyML "\\end\x7btabular\x7d".data r3)
        (r2.length + 1) [] r2).map fun p =>
          let (rep, st') := addBlock (convertTabular p.1 "") st
          (rep, s.length - p.2.length, st')
    | _ => none

/-! ### Lists -/

def listItemHtml (i : Str) : String :=
  "<li style=\"padding-left:0.375rem;margin-bottom:0.375rem;color:var(--p-sec)\">" ++
    String.mk (jsTrim i) ++ "</li>"

def mItemize (st : ConvSt) (s : Str) : Option (Str × Nat × ConvSt) :=
  (lit "\\begin\x7bitemize\x7d".data s).bind fun r =>
    (lazyML "\\end\x7bitemize\x7d".data r).map fun p =>
      let items := ((splitOnStr "\\item".data (jsTrim p.1)).drop 1).map
        listItemHtml
      let (rep, st') := addBlock
        ("<ul style=\"margin:1.25rem 0 1.25rem 1.25rem;list-style:disc;font-size:0.875rem\">" ++
          String.join items ++ "</ul>") st
      (rep, s.length - p.2.length, st')

def mEnumerate (st : ConvSt) (s : Str) : Option (Str × Nat × ConvSt) :=
  (lit "\\begin\x7benumerate\x7d".data s).bind fun r =>
    (lazyML "\\end\x7benumerate\x7d".data r).map fun p =>
      let items := ((splitOnStr "\\item".data (jsTrim p.1)).drop 1).map
        listItemHtml
      let (rep, st') := addBlock
        ("<ol style=\"margin:1.25rem 0 1.25rem 1.25rem;list-style:decimal;font-size:0.875rem\">" ++
          String.join items ++ "</ol>") st
      (rep, s.length - p.2.length, st')

/-- JS `String.prototype.indexOf` for a character. -/
def jsIndexOfChar (t : Char) (s : Str) : Int :=
  match s.findIdx? fun c => c == t with
  | some n => (n : Int)
  | none => -1

/-- JS `String.prototype.substring`: clamp both arguments into
`[0, length]` and swap them if needed. -/
def jsSubstring (s : Str) (a b : Int) : Str :=
  let n : Int := (s.length : Int)
  let a' := max 0 (min a n)
  let b' := max 0 (min b n)
  let lo := min a' b'
  let hi := max a' b'
  (s.take hi.toNat).drop lo.toNat

/-- The description-item split: `cb = i.indexOf(']')`,
`term = i.substring(0, cb)`, `desc = i.substring(cb + 1).trim()`. -/
def descItemPair (i : Str) : Str × Str :=
  let cb := jsIndexOfChar ']' i
  (jsSubstring i 0 cb, jsTrim (jsSubstring i (cb + 1) (i.length : Int)))

def descItemHtml (i : Str) : String :=
  let td := descItemPair i
  "<dt style=\"font-weight:600;color:var(--p-text)\">" ++ String.mk td.1 ++
    "</dt><dd style=\"margin-left:1.25rem;margin-bottom:0.5rem;color:var(--p-sec)\">" ++
    String.mk td.2 ++ "</dd>"

def mDescription (st : ConvSt) (s : Str) : Option (Str × Nat × ConvSt) :=
  (lit "\\begin\x7bdescription\x7d".data s).bind fun r =>
    (lazyML "\\end\x7bdescription\x7d".data r).map fun p =>
      let items := ((splitOnStr "\\item[".data (jsTrim p.1)).drop 1).map
        descItemHtml
      let (rep, st') := addBlock
        ("<dl style=\"margin:1.25rem 0;font-size:0.875rem\">" ++
          String.join items ++ "</dl>") st
      (rep, s.length - p.2.length, st')

/-! ### Paragraph assembly -/

/-- Match `__BLK_\d+__` at the head, returning its length. -/
def blkTokAt (s : Str) : Option Nat :=
  match lit "__BLK_".data s with
  | none => none
  | some r =>
    let ds := r.takeWhile fun c => c.isDigit
    if ds.isEmpty then none
    else
      match r.drop ds.length with
      | '_' :: '_' :: _ => some (6 + ds.length + 2)
      | _ => none

/-- Match `\n\s*\n` (greedy `\s*`) at the head, returning its length. -/
def blankLineAt (s : Str) : Option Nat :=
  match s with
  | '\n' :: r =>
    let run := r.takeWhile jsSpace
    match run.reverse.findIdx? fun c => c == '\n' with
    | some rposFromEnd => some (1 + (run.length - rposFromEnd))
    | none => none
  | _ => none

/-- `tex.split(/(__BLK_\d+__|\n\s*\n)/)`: split on the separators,
keeping the captured separators as pieces. -/
def splitCapG : Nat → Str → Str → List Str
  | 0, acc, s => [acc.reverse ++ s]
  | _ + 1, acc, [] => [acc.reverse]
  | fuel + 1, acc, c :: cs =>
    match blkTokAt (c :: cs) with
    | some n =>
      acc.reverse :: (c :: cs).take n ::
        splitCapG fuel [] ((c :: cs).drop n)
    | none =>
      match blankLineAt (c :: cs) with
      | some n =>
        acc.reverse :: (c :: cs).take n ::
          splitCapG fuel [] ((c :: cs).drop n)
      | none => splitCapG fuel (c :: acc) cs

def splitCap (s : Str) : List Str := splitCapG (s.length + 1) [] s

/-- `\\newline|\\\\` rewritten to `<br/>`. -/
def mBreak (s : Str) : Option (Str × Nat) :=
  if "\\newline".data.isPrefixOf s then some ("<br/>".data, 8)
  else if "\\\\".data.isPrefixOf s then some ("<br/>".data, 2)
  else none

def wrapParagraph (p : Str) : Str :=
  if "__BLK_".data.isPrefixOf p then p
  else
    "<p style=\"margin-bottom:1.25rem;line-height:1.75;color:var(--p-sec);text-align:justify;font-size:0.875rem\">".data ++
      gsub mBreak p ++ "</p>".data

/-- `body.replace(/__BLK_\d+__/g, m => blocks[m] || '')`. -/
def resolveBlocks (blocks : List (String × String)) (s : Str) : Str :=
  gsub
    (fun t =>
      (blkTokAt t).map fun n =>
        ((match lookupStr blocks (String.mk (t.take n)) with
          | some v => v.data
          | none => []), n))
    s

/-- `convertLatexToHtml` of `latexToHtml.ts`. -/
def convertLatexToHtml (latexCode : String) : LatexConvertResult :=
  if latexCode.data.isEmpty then ⟨"", []⟩
  else
    let st0 : ConvSt := ⟨[], 0, [], 0, 0⟩
    -- Strip preamble / document env
    let t1 := gsub (mOptBrackBraceDel "\\documentclass".data) latexCode.data
    let t2 := gsub (mOptBrackBraceDel "\\usepackage".data) t1
    let t3 := subFirst (mLitDel "\\begin\x7bdocument\x7d".data) t2
    let t4 := subFirst (mLitDel "\\end\x7bdocument\x7d".data) t3
    let t5 := gsub (mLitBracesDel "\\definecolor".data 3) t4
    let t6 := gsub (mLitBracesDel "\\color".data 1) t5
    let t7 := gsub (mLitBracesDel "\\setlength".data 2) t6
    let t8 := gsub (mLitBracesDel "\\pagestyle".data 1) t7
    let t9 := gsub (mLitBracesDel "\\thispagestyle".data 1) t8
    let t10 := gsub (mNewcommandDel "\\newcommand".data) t9
    let t11 := gsub (mNewcommandDel "\\renewcommand".data) t10
    let t12 := gsub (mLitBracesDel "\\label".data 1) t11
    let t13 := gsub (mLitDel "\\centering".data) t12
    let t14 := jsTrim t13
    -- 1. Protect math
    let r15 := gsubSt mDollarBlock st0 t14
    let r16 := gsubSt mBracketBlock r15.2 r15.1
    let r17 := gsubSt mMathEnvBlock r16.2 r16.1
    let r18 := gsubSt mParenMath r17.2 r17.1
    let r19 := gsubStP mInlineDollar r18.2 r18.1
    let t19 := r19.1
    -- 2. Title / author / date
    let titleM := capFirstML "\\title".data t19
    let authorM := capFirstML "\\author".data t19
    let dateM := capFirstML "\\date".data t19
    let t20 := subFirst (mCmdCapMLDel "\\title".data) t19
    let t21 := subFirst (mCmdCapMLDel "\\author".data) t20
    let t22 := subFirst (mCmdCapMLDel "\\date".data) t21
    let t23 := subFirst (mLitDel "\\maketitle".data) t22
    let header := headerHtml titleM authorM dateM
    -- 3. Inline formatting
    let t24 := gsub (mWrap1 "\\textbf".data
      "<strong style=\"font-weight:600;color:var(--p-text)\">" "</strong>") t23
    let t25 := gsub (mWrap1 "\\textit".data
      "<em style=\"color:var(--p-sec)\">" "</em>") t24
    let t26 := gsub (mWrap1 "\\emph".data
      "<em style=\"color:var(--p-sec)\">" "</em>") t25
    let t27 := gsub (mWrap1 "\\texttt".data
      "<code style=\"font-family:\x27JetBrains Mono\x27,monospace;font-size:0.85em;padding:0.15em 0.3em;background:var(--p-code);border-radius:4px;color:var(--p-accent)\">"
      "</code>") t26
    let t28 := gsub (mWrap1 "\\underline".data
      "<u style=\"text-decoration-color:var(--p-muted)\">" "</u>") t27
    let t29 := gsub mHref t28
    let t30 := gsub mUrl t29
    let r31 := gsubSt mFootnote r19.2 t30
    -- 4. Sections
    let r32 := gsubSt (mSection "\\section".data
      "<h2 style=\"font-size:1.25rem;font-weight:600;margin-top:2.5rem;margin-bottom:1.25rem;color:var(--p-head);border-bottom:1px solid var(--p-border);padding-bottom:0.5rem;font-family:\x27Space Grotesk\x27,sans-serif\">"
      "</h2>") r31.2 r31.1
    let r33 := gsubSt (mSection "\\subsection".data
      "<h3 style=\"font-size:1.125rem;font-weight:600;margin-top:1.75rem;margin-bottom:0.75rem;color:var(--p-text);font-family:\x27Space Grotesk\x27,sans-serif\">"
      "</h3>") r32.2 r32.1
    let r34 := gsubSt (mSection "\\subsubsection".data
      "<h4 style=\"font-size:1rem;font-weight:600;margin-top:1.5rem;margin-bottom:0.5rem;color:var(--p-text);font-family:\x27Space Grotesk\x27,sans-serif\">"
      "</h4>") r33.2 r33.1
    -- 5. Verbatim / lstlisting
    let r35 := gsubSt mVerbatim r34.2 r34.1
    let r36 := gsubSt mLstlisting r35.2 r35.1
    -- 6. Blockquote
    let r37 := gsubSt mQuote r36.2 r36.1
    -- 7. Tables
    let r38 := gsubSt mTable r37.2 r37.1
    let r39 := gsubSt mTabularBlock r38.2 r38.1
    -- 8. Lists
    let r40 := gsubSt mItemize r39.2 r39.1
    let r41 := gsubSt mEnumerate r40.2 r40.1
    let r42 := gsubSt mDescription r41.2 r41.1
    -- 9. Paragraphs
    let body := (((splitCap r42.1).map jsTrim).filter fun p =>
      !p.isEmpty).map wrapParagraph
    let body2 := resolveBlocks r42.2.blocks body.flatten
    ⟨String.mk (header.data ++ body2), r42.2.mathMap⟩

/-! ## Helper lemmas -/

theorem string_ne_of_take_ne (a b : String) (k : Nat)
    (h : a.data.take k ≠ b.data.take k) : a ≠ b := by
  intro he
  exact h (by rw [he])

theorem isPrefixOf_append_left (p a b : Str) (h : p.length ≤ a.length) :
    p.isPrefixOf (a ++ b) = p.isPrefixOf a := by
  rw [Bool.eq_iff_iff]
  simp only [List.isPrefixOf_iff_prefix]
  constructor
  · intro hp
    have hpt : p = (a ++ b).take p.length := List.prefix_iff_eq_take.mp hp
    rw [List.take_append_of_le_length h] at hpt
    exact hpt ▸ List.take_prefix _ _
  · intro hp
    exact hp.trans (List.prefix_append a b)

theorem not_isPrefixOf_of_take_ne (p s : Str) (k : Nat) (hk : k ≤ p.length)
    (h : p.take k ≠ s.take k) : p.isPrefixOf s = false := by
  by_contra hb
  have hp : p <+: s := List.isPrefixOf_iff_prefix.mp (by
    cases hx : p.isPrefixOf s
    · exact absurd hx hb
    · rfl)
  have hpt : p = s.take p.length := List.prefix_iff_eq_take.mp hp
  apply h
  calc p.take k = (s.take p.length).take k := by rw [← hpt]
    _ = s.take (min k p.length) := by rw [List.take_take]
    _ = s.take k := by rw [Nat.min_eq_left hk]

theorem take_data_append (fix : String) (x : List Char) (m : String)
    (hm : m.data = fix.data ++ x) (k : Nat) (hk : k ≤ fix.data.length) :
    m.data.take k = fix.data.take k := by
  rw [hm, List.take_append_of_le_length hk]

/-- Two messages built over distinct fixed prefixes are distinct. -/
theorem string_ne_of_decomp (a b fix : String) (x : List Char)
    (ha : a.data = fix.data ++ x) (k : Nat) (hkf : k ≤ fix.data.length)
    (hne : fix.data.take k ≠ b.data.take k) : a ≠ b :=
  string_ne_of_take_ne a b k
    (by rw [take_data_append fix x a ha k hkf]; exact hne)

/-! ### Message classifiers

An issue is recognised as coming from a given check by the fixed prefix of
its message; the lemmas below show the prefixes of the different checks are
mutually exclusive. -/

def msgHasPre (p m : String) : Bool := p.data.isPrefixOf m.data

def isEnvMismatchMsg (i : ValidationIssue) : Bool :=
  msgHasPre "Environment mismatch:" i.message

def isEnvIssueMsg (i : ValidationIssue) : Bool :=
  msgHasPre "Extra \\end\x7b" i.message ||
  msgHasPre "Environment mismatch:" i.message ||
  msgHasPre "Unclosed environment:" i.message

theorem msgHasPre_false_of (p m fix : String) (x : List Char)
    (hm : m.data = fix.data ++ x) (k : Nat) (hkp : k ≤ p.data.length)
    (hkf : k ≤ fix.data.length) (hne : p.data.take k ≠ fix.data.take k) :
    msgHasPre p m = false := by
  unfold msgHasPre
  apply not_isPrefixOf_of_take_ne _ _ k hkp
  rw [take_data_append fix x m hm k hkf]
  exact hne

theorem msgHasPre_true_of (p m fix : String) (x : List Char)
    (hm : m.data = fix.data ++ x) (hlen : p.data.length ≤ fix.data.length)
    (hp : p.data.isPrefixOf fix.data = true) : msgHasPre p m = true := by
  unfold msgHasPre
  rw [hm, isPrefixOf_append_left _ _ _ hlen, hp]

/-! ### Decompositions of the parametrised messages -/

theorem msgUnclosedBraces_data (d : Int) : (msgUnclosedBraces d).data =
    "Found ".data ++ ((toString d).data ++ " unclosed brace(s) \"\x7b\".".data) := by
  simp [msgUnclosedBraces, String.data_append]

theorem msgExtraEnd_data (n : Str) : (msgExtraEnd n).data =
    "Extra \\end\x7b".data ++ (n ++ "\x7d found.".data) := by
  simp [msgExtraEnd, String.data_append]

theorem msgEnvMismatch_data (a b : Str) : (msgEnvMismatch a b).data =
    "Environment mismatch: Expected \\end\x7b".data ++
      (a ++ ("\x7d but found \\end\x7b".data ++ (b ++ "\x7d.".data))) := by
  simp [msgEnvMismatch, String.data_append]

theorem msgUnclosedEnv_data (n : Str) : (msgUnclosedEnv n).data =
    "Unclosed environment: \\begin\x7b".data ++ (n ++ "\x7d.".data) := by
  simp [msgUnclosedEnv, String.data_append]

theorem msgBracketMismatch_data (o c : Nat) : (msgBracketMismatch o c).data =
    "Mismatched display math delimiters: ".data ++
      ((toString o).data ++ (" \\[ vs ".data ++ ((toString c).data ++ " \\].".data))) := by
  simp [msgBracketMismatch, String.data_append]

theorem msgParenMismatch_data (o c : Nat) : (msgParenMismatch o c).data =
    "Mismatched inline math delimiters: ".data ++
      ((toString o).data ++ (" \\( vs ".data ++ ((toString c).data ++ " \\).".data))) := by
  simp [msgParenMismatch, String.data_append]

theorem msgMathOutside_data (fs : List String) : (msgMathOutside fs).data =
    "Math commands used outside math mode: ".data ++
      ((String.intercalate ", " (fs.take 5)).data ++
        (((if fs.length > 5 then "..." else "") : String).data ++
          ". Wrap in $...$ or \\[...\\].".data)) := by
  simp [msgMathOutside, String.data_append]

/-! ### Family-level disequality and prefix facts -/

theorem msgUnclosedBraces_ne (d : Int) (b : String) (k : Nat)
    (hk : k ≤ "Found ".data.length)
    (h : "Found ".data.take k ≠ b.data.take k) : msgUnclosedBraces d ≠ b :=
  string_ne_of_decomp _ b _ _ (msgUnclosedBraces_data d) k hk h

theorem msgExtraEnd_ne (n : Str) (b : String) (k : Nat)
    (hk : k ≤ "Extra \\end\x7b".data.length)
    (h : "Extra \\end\x7b".data.take k ≠ b.data.take k) : msgExtraEnd n ≠ b :=
  string_ne_of_decomp _ b _ _ (msgExtraEnd_data n) k hk h

theorem msgEnvMismatch_ne (a c : Str) (b : String) (k : Nat)
    (hk : k ≤ "Environment mismatch: Expected \\end\x7b".data.length)
    (h : "Environment mismatch: Expected \\end\x7b".data.take k ≠ b.data.take k) :
    msgEnvMismatch a c ≠ b :=
  string_ne_of_decomp _ b _ _ (msgEnvMismatch_data a c) k hk h

theorem msgUnclosedEnv_ne (n : Str) (b : String) (k : Nat)
    (hk : k ≤ "Unclosed environment: \\begin\x7b".data.length)
    (h : "Unclosed environment: \\begin\x7b".data.take k ≠ b.data.take k) :
    msgUnclosedEnv n ≠ b :=
  string_ne_of_decomp _ b _ _ (msgUnclosedEnv_data n) k hk h

theorem msgBracketMismatch_ne (o c : Nat) (b : String) (k : Nat)
    (hk : k ≤ "Mismatched display math delimiters: ".data.length)
    (h : "Mismatched display math delimiters: ".data.take k ≠ b.data.take k) :
    msgBracketMismatch o c ≠ b :=
  string_ne_of_decomp _ b _ _ (msgBracketMismatch_data o c) k hk h

theorem msgParenMismatch_ne (o c : Nat) (b : String) (k : Nat)
    (hk : k ≤ "Mismatched inline math delimiters: ".data.length)
    (h : "Mismatched inline math delimiters: ".data.take k ≠ b.data.take k) :
    msgParenMismatch o c ≠ b :=
  string_ne_of_decomp _ b _ _ (msgParenMismatch_data o c) k hk h

theorem msgMathOutside_ne (fs : List String) (b : String) (k : Nat)
    (hk : k ≤ "Math commands used outside math mode: ".data.length)
    (h : "Math commands used outside math mode: ".data.take k ≠ b.data.take k) :
    msgMathOutside fs ≠ b :=
  string_ne_of_decomp _ b _ _ (msgMathOutside_data fs) k hk h

theorem msgHasPre_unclosedBraces (p : String) (d : Int) (k : Nat)
    (hkp : k ≤ p.data.length) (hk : k ≤ "Found ".data.length)
    (h : p.data.take k ≠ "Found ".data.take k) :
    msgHasPre p (msgUnclosedBraces d) = false :=
  msgHasPre_false_of p _ _ _ (msgUnclosedBraces_data d) k hkp hk h

theorem msgHasPre_extraEnd (p : String) (n : Str) (k : Nat)
    (hkp : k ≤ p.data.length) (hk : k ≤ "Extra \\end\x7b".data.length)
    (h : p.data.take k ≠ "Extra \\end\x7b".data.take k) :
    msgHasPre p (msgExtraEnd n) = false :=
  msgHasPre_false_of p _ _ _ (msgExtraEnd_data n) k hkp hk h

theorem msgHasPre_envMismatch (p : String) (a c : Str) (k : Nat)
    (hkp : k ≤ p.data.length)
    (hk : k ≤ "Environment mismatch: Expected \\end\x7b".data.length)
    (h : p.data.take k ≠ "Environment mismatch: Expected \\end\x7b".data.take k) :
    msgHasPre p (msgEnvMismatch a c) = false :=
  msgHasPre_false_of p _ _ _ (msgEnvMismatch_data a c) k hkp hk h

theorem msgHasPre_unclosedEnv (p : String) (n : Str) (k : Nat)
    (hkp : k ≤ p.data.length)
    (hk : k ≤ "Unclosed environment: \\begin\x7b".data.length)
    (h : p.data.take k ≠ "Unclosed environment: \\begin\x7b".data.take k) :
    msgHasPre p (msgUnclosedEnv n) = false :=
  msgHasPre_false_of p _ _ _ (msgUnclosedEnv_data n) k hkp hk h

theorem msgHasPre_bracketMismatch (p : String) (o c : Nat) (k : Nat)
    (hkp : k ≤ p.data.length)
    (hk : k ≤ "Mismatched display math delimiters: ".data.length)
    (h : p.data.take k ≠ "Mismatched display math delimiters: ".data.take k) :
    msgHasPre p (msgBracketMismatch o c) = false :=
  msgHasPre_false_of p _ _ _ (msgBracketMismatch_data o c) k hkp hk h

theorem msgHasPre_parenMismatch (p : String) (o c : Nat) (k : Nat)
    (hkp : k ≤ p.data.length)
    (hk : k ≤ "Mismatched inline math delimiters: ".data.length)
    (h : p.data.take k ≠ "Mismatched inline math delimiters: ".data.take k) :
    msgHasPre p (msgParenMismatch o c) = false :=
  msgHasPre_false_of p _ _ _ (msgParenMismatch_data o c) k hkp hk h

theorem msgHasPre_mathOutside (p : String) (fs : List String) (k : Nat)
    (hkp : k ≤ p.data.length)
    (hk : k ≤ "Math commands used outside math mode: ".data.length)
    (h : p.data.take k ≠ "Math commands used outside math mode: ".data.take k) :
    msgHasPre p (msgMathOutside fs) = false :=
  msgHasPre_false_of p _ _ _ (msgMathOutside_data fs) k hkp hk h

/-! ### Shapes of the issues each check can produce -/

/-- Messages the environment check can produce. -/
def EnvMsgShape (m : String) : Prop :=
  (∃ n, m = msgExtraEnd n) ∨ (∃ a b, m = msgEnvMismatch a b) ∨
    (∃ n, m = msgUnclosedEnv n)

theorem envStep_shape (acc : List ValidationIssue × List EnvFrame) (t : EnvTok)
    (h : ∀ i ∈ acc.1, i.type = .error ∧ EnvMsgShape i.message) :
    ∀ i ∈ (envStep acc t).1, i.type = .error ∧ EnvMsgShape i.message := by
  unfold envStep
  by_cases hb : t.isBegin
  · simpa [hb] using h
  · simp only [hb]
    match hacc : acc.2 with
    | [] =>
      intro i hi
      simp only [Bool.false_eq_true, if_false, hacc] at hi
      rcases List.mem_append.mp hi with hmem | hmem
      · exact h i hmem
      · rcases List.mem_singleton.mp hmem with rfl
        exact ⟨rfl, Or.inl ⟨t.name, rfl⟩⟩
    | top :: rest =>
      by_cases hn : top.name = t.name
      · simpa [hacc, hn] using h
      · intro i hi
        simp only [Bool.false_eq_true, if_false, hacc, hn] at hi
        rcases List.mem_append.mp hi with hmem | hmem
        · exact h i hmem
        · rcases List.mem_singleton.mp hmem with rfl
          exact ⟨rfl, Or.inr (Or.inl ⟨top.name, t.name, rfl⟩)⟩

theorem envFold_shape (ts : List EnvTok) :
    ∀ acc, (∀ i ∈ acc.1, i.type = .error ∧ EnvMsgShape i.message) →
      ∀ i ∈ (ts.foldl envStep acc).1, i.type = .error ∧ EnvMsgShape i.message := by
  induction ts with
  | nil => intro acc h; exact h
  | cons t ts ih =>
    intro acc h
    exact ih (envStep acc t) (envStep_shape acc t h)

theorem envIssuesTok_shape (ts : List EnvTok) :
    ∀ i ∈ envIssuesTok ts, i.type = .error ∧ EnvMsgShape i.message := by
  intro i hi
  unfold envIssuesTok at hi
  rcases List.mem_append.mp hi with hmem | hmem
  · exact envFold_shape ts ([], []) (by intro i hi; cases hi) i hmem
  · rcases List.mem_map.mp hmem with ⟨f, _, rfl⟩
    exact ⟨rfl, Or.inr (Or.inr ⟨f.name, rfl⟩)⟩

/-! ### Per-check `countP` lemmas -/

theorem countP_declIssues (c : ValidationIssue → Bool)
    (h1 : c ⟨.error, msgMissingDocclass⟩ = false)
    (h2 : c ⟨.error, msgMissingBeginDoc⟩ = false)
    (h3 : c ⟨.error, msgMissingEndDoc⟩ = false) (l : Str) :
    (declIssues l).countP c = 0 := by
  unfold declIssues
  split <;> split <;> split <;>
    simp [List.countP_append, List.countP_cons, h1, h2, h3, List.countP_nil]

theorem countP_braceIssues (c : ValidationIssue → Bool)
    (h1 : c ⟨.error, msgClosingBrace⟩ = false)
    (h2 : ∀ d, c ⟨.error, msgUnclosedBraces d⟩ = false) (l : Str) :
    (braceIssues l).countP c = 0 := by
  unfold braceIssues
  rcases hb : braceOutcomeOf l with _ | d
  · simp [hb, List.countP_cons, h1]
  · show (if d > 0 then [⟨IssueType.error, msgUnclosedBraces d⟩] else
      ([] : List ValidationIssue)).countP c = 0
    split <;> simp [List.countP_cons, h2]

theorem countP_envIssues (c : ValidationIssue → Bool)
    (h1 : ∀ n, c ⟨.error, msgExtraEnd n⟩ = false)
    (h2 : ∀ a b, c ⟨.error, msgEnvMismatch a b⟩ = false)
    (h3 : ∀ n, c ⟨.error, msgUnclosedEnv n⟩ = false) (l : Str) :
    (envIssuesOf l).countP c = 0 := by
  rw [List.countP_eq_zero]
  intro i hi
  obtain ⟨hty, hshape⟩ := envIssuesTok_shape (envTokensOf l) i hi
  obtain ⟨ty, msg⟩ := i
  cases hty
  rcases hshape with ⟨n, h⟩ | ⟨a, b, h⟩ | ⟨n, h⟩ <;>
    simp only at h <;> subst h
  · simp [h1 n]
  · simp [h2 a b]
  · simp [h3 n]

theorem countP_forbiddenIssues (c : ValidationIssue → Bool)
    (h1 : c ⟨.error, msgForbidden⟩ = false) (l : Str) :
    (forbiddenIssues l).countP c = 0 := by
  unfold forbiddenIssues
  split <;> simp [List.countP_cons, h1]

theorem countP_dollarIssues (c : ValidationIssue → Bool)
    (h1 : c ⟨.warning, msgOddDollar⟩ = false) (l : Str) :
    (dollarIssues l).countP c = 0 := by
  unfold dollarIssues
  split <;> simp [List.countP_cons, h1]

theorem countP_displayIssues (c : ValidationIssue → Bool)
    (h1 : ∀ o cl, c ⟨.warning, msgBracketMismatch o cl⟩ = false) (l : Str) :
    (displayIssues l).countP c = 0 := by
  unfold displayIssues
  split <;> simp [List.countP_cons, h1]

theorem countP_parenIssues (c : ValidationIssue → Bool)
    (h1 : ∀ o cl, c ⟨.warning, msgParenMismatch o cl⟩ = false) (l : Str) :
    (parenIssues l).countP c = 0 := by
  unfold parenIssues
  split <;> simp [List.countP_cons, h1]

theorem countP_mathOutIssues (c : ValidationIssue → Bool)
    (h1 : ∀ fs, c ⟨.warning, msgMathOutside fs⟩ = false) (l : Str) :
    (mathOutIssues l).countP c = 0 := by
  unfold mathOutIssues
  split
  · rfl
  · simp [List.countP_cons, h1]

theorem validateLatexL_countP (c : ValidationIssue → Bool) (l : Str) :
    (validateLatexL l).countP c =
      (declIssues l).countP c + (braceIssues l).countP c +
      (envIssuesOf l).countP c + (forbiddenIssues l).countP c +
      (dollarIssues l).countP c + (displayIssues l).countP c +
      (parenIssues l).countP c + (mathOutIssues l).countP c := by
  unfold validateLatexL
  simp only [List.countP_append]

/-! ## Claim C7: empty input -/

/-- C7: `validateLatex` on the empty string returns no issues, and
`convertLatexToHtml` on the empty string returns an empty `html` with an
empty `mathMap`. -/
theorem validateLatex_convert_empty_c7 :
    validateLatex "" = [] ∧
      convertLatexToHtml "" = ⟨"", []⟩ := by
  constructor <;> rfl

/-! ## Claim C4: the three declaration checks -/

theorem validateLatex_nonempty (latex : String)
    (h : latex.data.isEmpty = false) :
    validateLatex latex = validateLatexL latex.data := by
  unfold validateLatex
  simp [h]

theorem countP_decl_doc (l : Str) :
    (declIssues l).countP (fun i => i.message == msgMissingDocclass) =
      (if containsSub "\\documentclass".data l then 0 else 1) := by
  unfold declIssues
  split <;> split <;> split <;> simp +decide [List.countP_cons]

theorem countP_decl_begin (l : Str) :
    (declIssues l).countP (fun i => i.message == msgMissingBeginDoc) =
      (if containsSub "\\begin\x7bdocument\x7d".data l then 0 else 1) := by
  unfold declIssues
  split <;> split <;> split <;> simp +decide [List.countP_cons]

theorem countP_decl_end (l : Str) :
    (declIssues l).countP (fun i => i.message == msgMissingEndDoc) =
      (if containsSub "\\end\x7bdocument\x7d".data l then 0 else 1) := by
  unfold declIssues
  split <;> split <;> split <;> simp +decide [List.countP_cons]

/-- All non-declaration checks are silent for a message-equality classifier
aimed at one of the three fixed `Missing …` messages. -/
theorem countP_nondecl_missing (l : Str) (M : String)
    (hclose : (msgClosingBrace == M) = false)
    (hforb : (msgForbidden == M) = false)
    (hdollar : (msgOddDollar == M) = false)
    (hM4 : "Mismatched display math delimiters: ".data.take 4 ≠ M.data.take 4)
    (hP4 : "Mismatched inline math delimiters: ".data.take 4 ≠ M.data.take 4)
    (hMa : "Math commands used outside math mode: ".data.take 3 ≠ M.data.take 3)
    (hF : "Found ".data.take 1 ≠ M.data.take 1)
    (hE : "Extra \\end\x7b".data.take 1 ≠ M.data.take 1)
    (hEn : "Environment mismatch: Expected \\end\x7b".data.take 1 ≠ M.data.take 1)
    (hU : "Unclosed environment: \\begin\x7b".data.take 1 ≠ M.data.take 1) :
    (braceIssues l).countP (fun i => i.message == M) = 0 ∧
    (envIssuesOf l).countP (fun i => i.message == M) = 0 ∧
    (forbiddenIssues l).countP (fun i => i.message == M) = 0 ∧
    (dollarIssues l).countP (fun i => i.message == M) = 0 ∧
    (displayIssues l).countP (fun i => i.message == M) = 0 ∧
    (parenIssues l).countP (fun i => i.message == M) = 0 ∧
    (mathOutIssues l).countP (fun i => i.message == M) = 0 := by
  refine ⟨?_, ?_, ?_, ?_, ?_, ?_, ?_⟩
  · exact countP_braceIssues _ (by simpa using hclose)
      (fun d => by
        simpa using beq_eq_false_iff_ne.mpr
          (msgUnclosedBraces_ne d M 1 (by decide) hF)) l
  · exact countP_envIssues _
      (fun n => by
        simpa using beq_eq_false_iff_ne.mpr (msgExtraEnd_ne n M 1 (by decide) hE))
      (fun a b => by
        simpa using beq_eq_false_iff_ne.mpr
          (msgEnvMismatch_ne a b M 1 (by decide) hEn))
      (fun n => by
        simpa using beq_eq_false_iff_ne.mpr
          (msgUnclosedEnv_ne n M 1 (by decide) hU)) l
  · exact countP_forbiddenIssues _ (by simpa using hforb) l
  · exact countP_dollarIssues _ (by simpa using hdollar) l
  · exact countP_displayIssues _
      (fun o c => by
        simpa using beq_eq_false_iff_ne.mpr
          (msgBracketMismatch_ne o c M 4 (by decide) hM4)) l
  · exact countP_parenIssues _
      (fun o c => by
        simpa using beq_eq_false_iff_ne.mpr
          (msgParenMismatch_ne o c M 4 (by decide) hP4)) l
  · exact countP_mathOutIssues _
      (fun fs => by
        simpa using beq_eq_false_iff_ne.mpr
          (msgMathOutside_ne fs M 3 (by decide) hMa)) l

/-- C4: the input `\section{Intro}\section{Intro}` yields exactly the three
missing-declaration errors and nothing else; and in general each of the
three declaration checks fires exactly when its marker is absent,
independently of the others. -/
theorem validateLatex_missing_decls_c4 (latex : String)
    (hne : latex.data.isEmpty = false) :
    validateLatex "\\section\x7bIntro\x7d\\section\x7bIntro\x7d" =
      [⟨.error, msgMissingDocclass⟩, ⟨.error, msgMissingBeginDoc⟩,
       ⟨.error, msgMissingEndDoc⟩] ∧
    (validateLatex latex).countP (fun i => i.message == msgMissingDocclass) =
      (if containsSub "\\documentclass".data latex.data then 0 else 1) ∧
    (validateLatex latex).countP (fun i => i.message == msgMissingBeginDoc) =
      (if containsSub "\\begin\x7bdocument\x7d".data latex.data then 0 else 1) ∧
    (validateLatex latex).countP (fun i => i.message == msgMissingEndDoc) =
      (if containsSub "\\end\x7bdocument\x7d".data latex.data then 0 else 1) := by
  refine ⟨by decide, ?_, ?_, ?_⟩
  · rw [validateLatex_nonempty latex hne, validateLatexL_countP]
    obtain ⟨h1, h2, h3, h4, h5, h6, h7⟩ :=
      countP_nondecl_missing latex.data msgMissingDocclass (by decide)
        (by decide) (by decide) (by decide) (by decide) (by decide)
        (by decide) (by decide) (by decide) (by decide)
    rw [countP_decl_doc, h1, h2, h3, h4, h5, h6, h7]
    simp
  · rw [validateLatex_nonempty latex hne, validateLatexL_countP]
    obtain ⟨h1, h2, h3, h4, h5, h6, h7⟩ :=
      countP_nondecl_missing latex.data msgMissingBeginDoc (by decide)
        (by decide) (by decide) (by decide) (by decide) (by decide)
        (by decide) (by decide) (by decide) (by decide)
    rw [countP_decl_begin, h1, h2, h3, h4, h5, h6, h7]
    simp
  · rw [validateLatex_nonempty latex hne, validateLatexL_countP]
    obtain ⟨h1, h2, h3, h4, h5, h6, h7⟩ :=
      countP_nondecl_missing latex.data msgMissingEndDoc (by decide)
        (by decide) (by decide) (by decide) (by decide) (by decide)
        (by decide) (by decide) (by decide) (by decide)
    rw [countP_decl_end, h1, h2, h3, h4, h5, h6, h7]
    simp

/-- Witness for C4 at the concrete input of the claim. -/
theorem validateLatex_missing_decls_c4_witness :
    (validateLatex "\\section\x7bIntro\x7d\\section\x7bIntro\x7d").countP
        (fun i => i.message == msgMissingDocclass) = 1 := by
  have h := validateLatex_missing_decls_c4
    "\\section\x7bIntro\x7d\\section\x7bIntro\x7d" (by decide)
  rw [h.2.1]
  decide

/-! ## Claim C3: negative brace depth -/

theorem braceDepthPref_nil : ∀ i, braceDepthPref [] i = 0
  | 0 => rfl
  | i + 1 => by
    unfold braceDepthPref
    rw [braceDepthPref_nil i]
    rfl

theorem braceDepthPref_succ (l : Str) (i : Nat) (c : Char)
    (hget : l.get? i = some c) :
    braceDepthPref l (i + 1) =
      (if !braceEscaped l i && c == '{' then braceDepthPref l i + 1
       else if !braceEscaped l i && c == '}' then braceDepthPref l i - 1
       else braceDepthPref l i) := by
  conv_lhs => unfold braceDepthPref
  rw [hget]

theorem braceLoop_succ (l : Str) (fuel i : Nat) (d : Int) (c : Char)
    (hget : l.get? i = some c) :
    braceLoop l (fuel + 1) i d =
      (if (if !braceEscaped l i && c == '{' then d + 1
           else if !braceEscaped l i && c == '}' then d - 1 else d) < 0
       then .negative
       else braceLoop l fuel (i + 1)
         (if !braceEscaped l i && c == '{' then d + 1
          else if !braceEscaped l i && c == '}' then d - 1 else d)) := by
  conv_lhs => rw [braceLoop]
  rw [hget]

theorem braceLoop_neg_or_nonneg (l : Str) :
    ∀ fuel i d, fuel + i = l.length + 1 → d = braceDepthPref l i →
      (∀ j, j ≤ i → 0 ≤ braceDepthPref l j) →
      braceLoop l fuel i d = .negative ∨
        (∀ k, k ≤ l.length → 0 ≤ braceDepthPref l k) := by
  intro fuel
  induction fuel with
  | zero =>
    intro i d hfi _ hall
    refine Or.inr fun k hk => hall k (by omega)
  | succ fuel ih =>
    intro i d hfi hd hall
    cases hget : l.get? i with
    | none =>
      have hlen : l.length ≤ i := by
        by_contra hcon
        rw [List.get?_eq_get (by omega)] at hget
        cases hget
      exact Or.inr fun k hk => hall k (by omega)
    | some c =>
      rw [braceLoop_succ l fuel i d c hget]
      set d' := (if !braceEscaped l i && c == '{' then d + 1
        else if !braceEscaped l i && c == '}' then d - 1 else d) with hd'
      have hstep : d' = braceDepthPref l (i + 1) := by
        rw [braceDepthPref_succ l i c hget, hd', hd]
      by_cases hneg : d' < 0
      · rw [if_pos hneg]
        exact Or.inl rfl
      · rw [if_neg hneg]
        exact ih (i + 1) d' (by omega) hstep
          (fun j hj => by
            rcases Nat.lt_or_ge j (i + 1) with hj' | hj'
            · exact hall j (by omega)
            · have : j = i + 1 := by omega
              subst this
              rw [← hstep]
              omega)

theorem braceOutcome_negative_of_pref (l : Str) (i : Nat) (hi : i ≤ l.length)
    (hneg : braceDepthPref l i < 0) : braceOutcomeOf l = .negative := by
  rcases braceLoop_neg_or_nonneg l (l.length + 1) 0 0 (by omega) rfl
      (fun j hj => by
        have : j = 0 := by omega
        subst this
        exact le_refl 0) with h | h
  · exact h
  · exact absurd (h i hi) (by omega)

/-- C3: whenever the escape-aware depth counter goes negative at some
prefix, the brace scan reports exactly the single closing-brace error (in
particular no unclosed-brace count from the same scan), and the full
validator carries exactly one such error. -/
theorem validateLatex_brace_negative_c3 (latex : String) (i : Nat)
    (hi : i ≤ latex.data.length)
    (hneg : braceDepthPref latex.data i < 0) :
    braceIssues latex.data = [⟨.error, msgClosingBrace⟩] ∧
    (validateLatex latex).countP
      (fun issue => issue.message == msgClosingBrace) = 1 := by
  have hbrace : braceIssues latex.data = [⟨.error, msgClosingBrace⟩] := by
    unfold braceIssues
    rw [braceOutcome_negative_of_pref latex.data i hi hneg]
  refine ⟨hbrace, ?_⟩
  have hne : latex.data.isEmpty = false := by
    cases hl : latex.data with
    | nil =>
      rw [hl, braceDepthPref_nil] at hneg
      omega
    | cons c cs => rfl
  rw [validateLatex_nonempty latex hne, validateLatexL_countP, hbrace]
  rw [countP_declIssues _ (by decide) (by decide) (by decide)]
  rw [countP_envIssues _
    (fun n => by
      simpa using beq_eq_false_iff_ne.mpr
        (msgExtraEnd_ne n msgClosingBrace 1 (by decide) (by decide)))
    (fun a b => by
      simpa using beq_eq_false_iff_ne.mpr
        (msgEnvMismatch_ne a b msgClosingBrace 1 (by decide) (by decide)))
    (fun n => by
      simpa using beq_eq_false_iff_ne.mpr
        (msgUnclosedEnv_ne n msgClosingBrace 1 (by decide) (by decide)))]
  rw [countP_forbiddenIssues _ (by decide)]
  rw [countP_dollarIssues _ (by decide)]
  rw [countP_displayIssues _
    (fun o c => by
      simpa using beq_eq_false_iff_ne.mpr
        (msgBracketMismatch_ne o c msgClosingBrace 1 (by decide) (by decide)))]
  rw [countP_parenIssues _
    (fun o c => by
      simpa using beq_eq_false_iff_ne.mpr
        (msgParenMismatch_ne o c msgClosingBrace 1 (by decide) (by decide)))]
  rw [countP_mathOutIssues _
    (fun fs => by
      simpa using beq_eq_false_iff_ne.mpr
        (msgMathOutside_ne fs msgClosingBrace 1 (by decide) (by decide)))]
  decide

/-- Witness for C3 at the concrete input `}`. -/
theorem validateLatex_brace_negative_c3_witness :
    braceIssues "\x7d".data = [⟨.error, msgClosingBrace⟩] ∧
    (validateLatex "\x7d").countP
      (fun issue => issue.message == msgClosingBrace) = 1 :=
  validateLatex_brace_negative_c3 "\x7d" 1 (by decide) (by decide)

/-! ## Claim C10: warning budget and error kinds -/

theorem dollarIssues_length (l : Str) : (dollarIssues l).length ≤ 1 := by
  unfold dollarIssues
  split <;> simp

theorem displayIssues_length (l : Str) : (displayIssues l).length ≤ 1 := by
  unfold displayIssues
  split <;> simp

theorem parenIssues_length (l : Str) : (parenIssues l).length ≤ 1 := by
  unfold parenIssues
  split <;> simp

theorem mathOutIssues_length (l : Str) : (mathOutIssues l).length ≤ 1 := by
  unfold mathOutIssues
  split <;> simp

/-- C10: at most one warning from each of the four warning-producing
checks — hence at most four warnings in total — and every issue of the
declaration, brace, environment and forbidden-command checks is an
`error`. -/
theorem validateLatex_warning_budget_c10 (latex : String) :
    (validateLatex latex).countP (fun i => i.type == IssueType.warning) ≤ 4 ∧
    (dollarIssues latex.data).length ≤ 1 ∧
    (displayIssues latex.data).length ≤ 1 ∧
    (parenIssues latex.data).length ≤ 1 ∧
    (mathOutIssues latex.data).length ≤ 1 ∧
    (declIssues latex.data).all (fun i => i.type == IssueType.error) = true ∧
    (braceIssues latex.data).all (fun i => i.type == IssueType.error) = true ∧
    (envIssuesOf latex.data).all (fun i => i.type == IssueType.error) = true ∧
    (forbiddenIssues latex.data).all
      (fun i => i.type == IssueType.error) = true := by
  set c := fun (i : ValidationIssue) => i.type == IssueType.warning with hc
  have hcount : (validateLatex latex).countP c ≤ 4 := by
    cases hne : latex.data.isEmpty with
    | true =>
      unfold validateLatex
      rw [hne]
      simp
    | false =>
      rw [validateLatex_nonempty latex hne, validateLatexL_countP]
      rw [countP_declIssues c (by decide) (by decide) (by decide)]
      rw [countP_braceIssues c (by decide) (fun d => rfl)]
      rw [countP_envIssues c (fun n => rfl) (fun a b => rfl) (fun n => rfl)]
      rw [countP_forbiddenIssues c (by decide)]
      have h1 := (List.countP_le_length (p := c)).trans
        (dollarIssues_length latex.data)
      have h2 := (List.countP_le_length (p := c)).trans
        (displayIssues_length latex.data)
      have h3 := (List.countP_le_length (p := c)).trans
        (parenIssues_length latex.data)
      have h4 := (List.countP_le_length (p := c)).trans
        (mathOutIssues_length latex.data)
      omega
  refine ⟨hcount, dollarIssues_length _, displayIssues_length _,
    parenIssues_length _, mathOutIssues_length _, ?_, ?_, ?_, ?_⟩
  · unfold declIssues
    split <;> split <;> split <;> simp
  · unfold braceIssues
    rcases hb : braceOutcomeOf latex.data with _ | d
    · simp [hb]
    · show (if d > 0 then [⟨IssueType.error, msgUnclosedBraces d⟩] else
        ([] : List ValidationIssue)).all _ = true
      split <;> simp
  · rw [List.all_eq_true]
    intro i hi
    rw [(envIssuesTok_shape _ i hi).1]
    rfl
  · unfold forbiddenIssues
    split <;> simp

/-! ## Claim C2: environment mismatch handling -/

/-- Well-nested `\begin`/`\end` token sequences (positions arbitrary). -/
inductive WellNestedEnvs : List EnvTok → Prop
  | nil : WellNestedEnvs []
  | wrap (nm : Str) (i j : Nat) (ts : List EnvTok) :
      WellNestedEnvs ts →
      WellNestedEnvs (⟨true, nm, i⟩ :: ts ++ [⟨false, nm, j⟩])
  | concat {a b : List EnvTok} :
      WellNestedEnvs a → WellNestedEnvs b → WellNestedEnvs (a ++ b)

theorem envStep_begin (acc : List ValidationIssue × List EnvFrame)
    (nm : Str) (i : Nat) :
    envStep acc ⟨true, nm, i⟩ = (acc.1, ⟨nm, i⟩ :: acc.2) := by
  unfold envStep
  rfl

theorem envStep_end_match (issues : List ValidationIssue)
    (fr : EnvFrame) (st : List EnvFrame) (j : Nat) :
    envStep (issues, fr :: st) ⟨false, fr.name, j⟩ = (issues, st) := by
  unfold envStep
  simp

theorem envStep_end_mismatch (issues : List ValidationIssue)
    (fr : EnvFrame) (st : List EnvFrame) (nm : Str) (j : Nat)
    (h : fr.name ≠ nm) :
    envStep (issues, fr :: st) ⟨false, nm, j⟩ =
      (issues ++ [⟨.error, msgEnvMismatch fr.name nm⟩], fr :: st) := by
  unfold envStep
  simp [h]

/-- Processing a well-nested token sequence from any state neither changes
the state nor produces issues. -/
theorem envFold_wellNested {ts : List EnvTok} (h : WellNestedEnvs ts) :
    ∀ acc, ts.foldl envStep acc = acc := by
  induction h with
  | nil => intro acc; rfl
  | wrap nm i j ts hts ih =>
    intro acc
    rw [List.foldl_append, List.foldl_cons, List.foldl_nil, List.foldl_cons,
      envStep_begin, ih, envStep_end_match acc.1 ⟨nm, i⟩ acc.2 j]
  | concat ha hb iha ihb =>
    intro acc
    rw [List.foldl_append, iha, ihb]

theorem isEnvMismatchMsg_mismatch (ty : IssueType) (a b : Str) :
    isEnvMismatchMsg ⟨ty, msgEnvMismatch a b⟩ = true :=
  msgHasPre_true_of _ _ "Environment mismatch: Expected \\end\x7b" _
    (msgEnvMismatch_data a b) (by decide) (by decide)

theorem isEnvMismatchMsg_unclosedEnv (ty : IssueType) (n : Str) :
    isEnvMismatchMsg ⟨ty, msgUnclosedEnv n⟩ = false :=
  msgHasPre_unclosedEnv _ n 1 (by decide) (by decide) (by decide)

theorem isEnvMismatchMsg_extraEnd (ty : IssueType) (n : Str) :
    isEnvMismatchMsg ⟨ty, msgExtraEnd n⟩ = false :=
  msgHasPre_extraEnd _ n 2 (by decide) (by decide) (by decide)

theorem isEnvIssueMsg_mismatch (ty : IssueType) (a b : Str) :
    isEnvIssueMsg ⟨ty, msgEnvMismatch a b⟩ = true := by
  unfold isEnvIssueMsg
  rw [show msgHasPre "Environment mismatch:"
      (ValidationIssue.message ⟨ty, msgEnvMismatch a b⟩) = true from
    isEnvMismatchMsg_mismatch ty a b]
  simp

theorem isEnvIssueMsg_unclosedEnv (ty : IssueType) (n : Str) :
    isEnvIssueMsg ⟨ty, msgUnclosedEnv n⟩ = true := by
  unfold isEnvIssueMsg
  rw [msgHasPre_true_of "Unclosed environment:" _
    "Unclosed environment: \\begin\x7b" _ (msgUnclosedEnv_data n)
    (by decide) (by decide)]
  simp

/-- The non-environment checks never produce a message carrying one of the
three environment prefixes. -/
theorem countP_nonenv_zero (l : Str) (c : ValidationIssue → Bool)
    (hdoc : c ⟨.error, msgMissingDocclass⟩ = false)
    (hbeg : c ⟨.error, msgMissingBeginDoc⟩ = false)
    (hend : c ⟨.error, msgMissingEndDoc⟩ = false)
    (hclose : c ⟨.error, msgClosingBrace⟩ = false)
    (hunb : ∀ d, c ⟨.error, msgUnclosedBraces d⟩ = false)
    (hforb : c ⟨.error, msgForbidden⟩ = false)
    (hdollar : c ⟨.warning, msgOddDollar⟩ = false)
    (hdisp : ∀ o cl, c ⟨.warning, msgBracketMismatch o cl⟩ = false)
    (hpar : ∀ o cl, c ⟨.warning, msgParenMismatch o cl⟩ = false)
    (hmath : ∀ fs, c ⟨.warning, msgMathOutside fs⟩ = false) :
    (validateLatexL l).countP c = (envIssuesOf l).countP c := by
  rw [validateLatexL_countP]
  rw [countP_declIssues c hdoc hbeg hend]
  rw [countP_braceIssues c hclose hunb]
  rw [countP_forbiddenIssues c hforb]
  rw [countP_dollarIssues c hdollar]
  rw [countP_displayIssues c hdisp]
  rw [countP_parenIssues c hpar]
  rw [countP_mathOutIssues c hmath]
  omega

theorem countP_nonenv_mismatchMsg (l : Str) :
    (validateLatexL l).countP isEnvMismatchMsg =
      (envIssuesOf l).countP isEnvMismatchMsg :=
  countP_nonenv_zero l isEnvMismatchMsg (by decide) (by decide) (by decide)
    (by decide)
    (fun d => msgHasPre_unclosedBraces _ d 1 (by decide) (by decide) (by decide))
    (by decide) (by decide)
    (fun o cl =>
      msgHasPre_bracketMismatch _ o cl 1 (by decide) (by decide) (by decide))
    (fun o cl =>
      msgHasPre_parenMismatch _ o cl 1 (by decide) (by decide) (by decide))
    (fun fs =>
      msgHasPre_mathOutside _ fs 1 (by decide) (by decide) (by decide))

theorem countP_nonenv_envIssueMsg (l : Str) :
    (validateLatexL l).countP isEnvIssueMsg =
      (envIssuesOf l).countP isEnvIssueMsg := by
  apply countP_nonenv_zero l isEnvIssueMsg (by decide) (by decide) (by decide)
    (by decide)
    (fun d => by
      simp [isEnvIssueMsg,
        msgHasPre_unclosedBraces "Extra \\end\x7b" d 1
          (by decide) (by decide) (by decide),
        msgHasPre_unclosedBraces "Environment mismatch:" d 1
          (by decide) (by decide) (by decide),
        msgHasPre_unclosedBraces "Unclosed environment:" d 1
          (by decide) (by decide) (by decide)])
    (by decide) (by decide)
    (fun o cl => by
      simp [isEnvIssueMsg,
        msgHasPre_bracketMismatch "Extra \\end\x7b" o cl 1
          (by decide) (by decide) (by decide),
        msgHasPre_bracketMismatch "Environment mismatch:" o cl 1
          (by decide) (by decide) (by decide),
        msgHasPre_bracketMismatch "Unclosed environment:" o cl 1
          (by decide) (by decide) (by decide)])
    (fun o cl => by
      simp [isEnvIssueMsg,
        msgHasPre_parenMismatch "Extra \\end\x7b" o cl 1
          (by decide) (by decide) (by decide),
        msgHasPre_parenMismatch "Environment mismatch:" o cl 1
          (by decide) (by decide) (by decide),
        msgHasPre_parenMismatch "Unclosed environment:" o cl 1
          (by decide) (by decide) (by decide)])
    (fun fs => by
      simp [isEnvIssueMsg,
        msgHasPre_mathOutside "Extra \\end\x7b" fs 1
          (by decide) (by decide) (by decide),
        msgHasPre_mathOutside "Environment mismatch:" fs 1
          (by decide) (by decide) (by decide),
        msgHasPre_mathOutside "Unclosed environment:" fs 1
          (by decide) (by decide) (by decide)])

theorem envTokensOf_nonempty_ne_nil (latex : String) (t : EnvTok)
    (ts : List EnvTok) (h : envTokensOf latex.data = t :: ts) :
    latex.data.isEmpty = false := by
  cases hl : latex.data with
  | nil =>
    rw [hl] at h
    cases h
  | cons c cs => rfl

/-- C2: a single mismatched pair `\begin{A}…\end{B}` (with well-nested
material between) yields exactly one environment-mismatch error naming `A`
and `B`; the popped frame is pushed back, so a following `\end{A}` closes
it leaving the mismatch as the only environment-related issue; and
well-nested token sequences yield no environment-related issues at all. -/
theorem validateLatex_env_mismatch_c2 (latex : String) (A B : Str)
    (i j k : Nat) (ws : List EnvTok) (hAB : A ≠ B)
    (hws : WellNestedEnvs ws) :
    (envTokensOf latex.data = ⟨true, A, i⟩ :: ws ++ [⟨false, B, j⟩] →
      envIssuesOf latex.data =
        [⟨.error, msgEnvMismatch A B⟩, ⟨.error, msgUnclosedEnv A⟩] ∧
      (validateLatex latex).countP isEnvMismatchMsg = 1) ∧
    (envTokensOf latex.data =
        ⟨true, A, i⟩ :: ws ++ [⟨false, B, j⟩, ⟨false, A, k⟩] →
      envIssuesOf latex.data = [⟨.error, msgEnvMismatch A B⟩] ∧
      (validateLatex latex).countP isEnvMismatchMsg = 1 ∧
      (validateLatex latex).countP isEnvIssueMsg = 1) ∧
    (WellNestedEnvs (envTokensOf latex.data) →
      (validateLatex latex).countP isEnvIssueMsg = 0) := by
  refine ⟨?_, ?_, ?_⟩
  · intro htok
    have hfold : (envTokensOf latex.data).foldl envStep ([], []) =
        ([⟨.error, msgEnvMismatch A B⟩], [⟨A, i⟩]) := by
      rw [htok, List.foldl_append, List.foldl_cons, List.foldl_nil,
        List.foldl_cons, envStep_begin, envFold_wellNested hws]
      exact envStep_end_mismatch [] ⟨A, i⟩ [] B j hAB
    have henv : envIssuesOf latex.data =
        [⟨.error, msgEnvMismatch A B⟩, ⟨.error, msgUnclosedEnv A⟩] := by
      unfold envIssuesOf envIssuesTok
      rw [hfold]
      rfl
    refine ⟨henv, ?_⟩
    rw [validateLatex_nonempty latex (envTokensOf_nonempty_ne_nil latex _ _ htok),
      countP_nonenv_mismatchMsg, henv]
    simp [List.countP_cons, isEnvMismatchMsg_mismatch,
      isEnvMismatchMsg_unclosedEnv]
  · intro htok
    have hfold : (envTokensOf latex.data).foldl envStep ([], []) =
        ([⟨.error, msgEnvMismatch A B⟩], []) := by
      have hsplit : ⟨true, A, i⟩ :: ws ++ [⟨false, B, j⟩, ⟨false, A, k⟩] =
          (⟨true, A, i⟩ :: ws ++ [⟨false, B, j⟩]) ++
            ([⟨false, A, k⟩] : List EnvTok) := by
        simp
      rw [htok, hsplit, List.foldl_append, List.foldl_cons, List.foldl_nil,
        List.foldl_append, List.foldl_cons, List.foldl_nil, List.foldl_cons,
        envStep_begin, envFold_wellNested hws,
        envStep_end_mismatch [] ⟨A, i⟩ [] B j hAB]
      simp only [List.nil_append]
      exact envStep_end_match [⟨.error, msgEnvMismatch A B⟩] ⟨A, i⟩ [] k
    have henv : envIssuesOf latex.data = [⟨.error, msgEnvMismatch A B⟩] := by
      unfold envIssuesOf envIssuesTok
      rw [hfold]
      rfl
    refine ⟨henv, ?_, ?_⟩
    · rw [validateLatex_nonempty latex
        (envTokensOf_nonempty_ne_nil latex _ _ htok),
        countP_nonenv_mismatchMsg, henv]
      simp [List.countP_cons, isEnvMismatchMsg_mismatch]
    · rw [validateLatex_nonempty latex
        (envTokensOf_nonempty_ne_nil latex _ _ htok),
        countP_nonenv_envIssueMsg, henv]
      simp [List.countP_cons, isEnvIssueMsg_mismatch]
  · intro hwn
    cases hne : latex.data.isEmpty with
    | true =>
      unfold validateLatex
      rw [hne]
      rfl
    | false =>
      rw [validateLatex_nonempty latex hne, countP_nonenv_envIssueMsg]
      have henv : envIssuesOf latex.data = [] := by
        unfold envIssuesOf envIssuesTok
        rw [envFold_wellNested hwn ([], [])]
        rfl
      rw [henv]
      rfl

/-- Witness for C2 at `\begin{a}\end{b}\end{a}`. -/
theorem validateLatex_env_mismatch_c2_witness :
    envIssuesOf "\\begin\x7ba\x7d\\end\x7bb\x7d\\end\x7ba\x7d".data =
      [⟨.error, msgEnvMismatch ['a'] ['b']⟩] ∧
    (validateLatex "\\begin\x7ba\x7d\\end\x7bb\x7d\\end\x7ba\x7d").countP
      isEnvMismatchMsg = 1 := by
  have h := (validateLatex_env_mismatch_c2
    "\\begin\x7ba\x7d\\end\x7bb\x7d\\end\x7ba\x7d" ['a'] ['b'] 0 9 16 []
    (by decide) WellNestedEnvs.nil).2.1 (by decide)
  exact ⟨h.1, h.2.1⟩

/-! ## Claim C5: `countWords` does not strip math content -/

/-- C5 (counterexample): appending the math span ` $x+y$` to `hello`
changes the word count — `countWords` strips only the `$` delimiters, so
the math content `x+y` is counted as a token. -/
theorem countWords_math_counterexample :
    ¬(countWords "hello $x+y$" = countWords "hello") := by
  decide

/-- C5 (amended): `countWords` strips environments, commands and
LaTeX-special characters, but math-span content is retained — only the
delimiter characters are removed — so a math span counts as the tokens of
its residual content. -/
theorem countWords_math_retained :
    countWords "hello" = 1 ∧
    countWords "hello $x+y$" = 2 ∧
    countWords "\\begin\x7bitemize\x7d\\item A\\item B\\end\x7bitemize\x7d" = 2 ∧
    countWords "\\textbf\x7bhi\x7d world" = 2 ∧
    countWords "$a$ $b$ $c$" = 3 := by
  refine ⟨by decide, by decide, by decide, by decide, by decide⟩

/-! ## Claim C6: display/inline delimiter count warnings -/

theorem countP_only_display (l : Str) (c : ValidationIssue → Bool)
    (hdoc : c ⟨.error, msgMissingDocclass⟩ = false)
    (hbeg : c ⟨.error, msgMissingBeginDoc⟩ = false)
    (hend : c ⟨.error, msgMissingEndDoc⟩ = false)
    (hclose : c ⟨.error, msgClosingBrace⟩ = false)
    (hunb : ∀ d, c ⟨.error, msgUnclosedBraces d⟩ = false)
    (hextra : ∀ n, c ⟨.error, msgExtraEnd n⟩ = false)
    (hmis : ∀ a b, c ⟨.error, msgEnvMismatch a b⟩ = false)
    (hunc : ∀ n, c ⟨.error, msgUnclosedEnv n⟩ = false)
    (hforb : c ⟨.error, msgForbidden⟩ = false)
    (hdollar : c ⟨.warning, msgOddDollar⟩ = false)
    (hpar : ∀ o cl, c ⟨.warning, msgParenMismatch o cl⟩ = false)
    (hmath : ∀ fs, c ⟨.warning, msgMathOutside fs⟩ = false) :
    (validateLatexL l).countP c = (displayIssues l).countP c := by
  rw [validateLatexL_countP]
  rw [countP_declIssues c hdoc hbeg hend]
  rw [countP_braceIssues c hclose hunb]
  rw [countP_envIssues c hextra hmis hunc]
  rw [countP_forbiddenIssues c hforb]
  rw [countP_dollarIssues c hdollar]
  rw [countP_parenIssues c hpar]
  rw [countP_mathOutIssues c hmath]
  omega

theorem countP_only_paren (l : Str) (c : ValidationIssue → Bool)
    (hdoc : c ⟨.error, msgMissingDocclass⟩ = false)
    (hbeg : c ⟨.error, msgMissingBeginDoc⟩ = false)
    (hend : c ⟨.error, msgMissingEndDoc⟩ = false)
    (hclose : c ⟨.error, msgClosingBrace⟩ = false)
    (hunb : ∀ d, c ⟨.error, msgUnclosedBraces d⟩ = false)
    (hextra : ∀ n, c ⟨.error, msgExtraEnd n⟩ = false)
    (hmis : ∀ a b, c ⟨.error, msgEnvMismatch a b⟩ = false)
    (hunc : ∀ n, c ⟨.error, msgUnclosedEnv n⟩ = false)
    (hforb : c ⟨.error, msgForbidden⟩ = false)
    (hdollar : c ⟨.warning, msgOddDollar⟩ = false)
    (hdisp : ∀ o cl, c ⟨.warning, msgBracketMismatch o cl⟩ = false)
    (hmath : ∀ fs, c ⟨.warning, msgMathOutside fs⟩ = false) :
    (validateLatexL l).countP c = (parenIssues l).countP c := by
  rw [validateLatexL_countP]
  rw [countP_declIssues c hdoc hbeg hend]
  rw [countP_braceIssues c hclose hunb]
  rw [countP_envIssues c hextra hmis hunc]
  rw [countP_forbiddenIssues c hforb]
  rw [countP_dollarIssues c hdollar]
  rw [countP_displayIssues c hdisp]
  rw [countP_mathOutIssues c hmath]
  omega

/-- `fix1.take k ≠ (msgF params).data.take k` computed through the
family decompositions: a constant or foreign-family message is never
`beq`-equal to `msgBracketMismatch a b`. -/
theorem ne_bracketMsg_take (m : String) (a b : Nat) (k : Nat)
    (hk : k ≤ "Mismatched display math delimiters: ".data.length)
    (h : m.data.take k ≠
      "Mismatched display math delimiters: ".data.take k) :
    (m == msgBracketMismatch a b) = false := by
  apply beq_eq_false_iff_ne.mpr
  intro he
  apply h
  rw [he, take_data_append _ _ _ (msgBracketMismatch_data a b) k hk]

theorem ne_parenMsg_take (m : String) (a b : Nat) (k : Nat)
    (hk : k ≤ "Mismatched inline math delimiters: ".data.length)
    (h : m.data.take k ≠
      "Mismatched inline math delimiters: ".data.take k) :
    (m == msgParenMismatch a b) = false := by
  apply beq_eq_false_iff_ne.mpr
  intro he
  apply h
  rw [he, take_data_append _ _ _ (msgParenMismatch_data a b) k hk]

/-- C6: the validator emits the display-math count warning (message
carrying both counts) iff the number of `\[` differs from the number of
`\]`, and the inline warning iff `\(` and `\)` counts differ; the checks
are raw counts, so `\]\[` (balanced counts, wrong order) produces
neither warning. -/
theorem validateLatex_delimiter_warnings_c6 (latex : String) :
    ((validateLatex latex).countP (fun i => i.message ==
        msgBracketMismatch (openBracketCount latex.data)
          (closeBracketCount latex.data)) =
      (if openBracketCount latex.data != closeBracketCount latex.data
       then 1 else 0)) ∧
    ((validateLatex latex).countP (fun i => i.message ==
        msgParenMismatch (openParenCount latex.data)
          (closeParenCount latex.data)) =
      (if openParenCount latex.data != closeParenCount latex.data
       then 1 else 0)) ∧
    validateLatex "\\]\\[" =
      [⟨.error, msgMissingDocclass⟩, ⟨.error, msgMissingBeginDoc⟩,
       ⟨.error, msgMissingEndDoc⟩] := by
  refine ⟨?_, ?_, by decide⟩
  · cases hne : latex.data.isEmpty with
    | true =>
      have hl : latex.data = [] := by
        cases hl : latex.data with
        | nil => rfl
        | cons c cs => rw [hl] at hne; cases hne
      unfold validateLatex
      rw [hne, hl]
      rfl
    | false =>
      set a := openBracketCount latex.data
      set b := closeBracketCount latex.data
      rw [validateLatex_nonempty latex hne]
      rw [countP_only_display latex.data _
        (ne_bracketMsg_take _ a b 4 (by decide) (by decide))
        (ne_bracketMsg_take _ a b 4 (by decide) (by decide))
        (ne_bracketMsg_take _ a b 4 (by decide) (by decide))
        (ne_bracketMsg_take _ a b 1 (by decide) (by decide))
        (fun d => ne_bracketMsg_take _ a b 1 (by decide) (by
          rw [take_data_append _ _ _ (msgUnclosedBraces_data d) 1 (by decide)]
          decide))
        (fun n => ne_bracketMsg_take _ a b 1 (by decide) (by
          rw [take_data_append _ _ _ (msgExtraEnd_data n) 1 (by decide)]
          decide))
        (fun x y => ne_bracketMsg_take _ a b 1 (by decide) (by
          rw [take_data_append _ _ _ (msgEnvMismatch_data x y) 1 (by decide)]
          decide))
        (fun n => ne_bracketMsg_take _ a b 1 (by decide) (by
          rw [take_data_append _ _ _ (msgUnclosedEnv_data n) 1 (by decide)]
          decide))
        (ne_bracketMsg_take _ a b 1 (by decide) (by decide))
        (ne_bracketMsg_take _ a b 1 (by decide) (by decide))
        (fun o cl => ne_bracketMsg_take _ a b 12 (by decide) (by
          rw [take_data_append _ _ _ (msgParenMismatch_data o cl) 12
            (by decide)]
          decide))
        (fun fs => ne_bracketMsg_take _ a b 2 (by decide) (by
          rw [take_data_append _ _ _ (msgMathOutside_data fs) 2 (by decide)]
          decide))]
      unfold displayIssues
      split
      · simp [List.countP_cons]
      · simp
  · cases hne : latex.data.isEmpty with
    | true =>
      have hl : latex.data = [] := by
        cases hl : latex.data with
        | nil => rfl
        | cons c cs => rw [hl] at hne; cases hne
      unfold validateLatex
      rw [hne, hl]
      rfl
    | false =>
      set a := openParenCount latex.data
      set b := closeParenCount latex.data
      rw [validateLatex_nonempty latex hne]
      rw [countP_only_paren latex.data _
        (ne_parenMsg_take _ a b 4 (by decide) (by decide))
        (ne_parenMsg_take _ a b 4 (by decide) (by decide))
        (ne_parenMsg_take _ a b 4 (by decide) (by decide))
        (ne_parenMsg_take _ a b 1 (by decide) (by decide))
        (fun d => ne_parenMsg_take _ a b 1 (by decide) (by
          rw [take_data_append _ _ _ (msgUnclosedBraces_data d) 1 (by decide)]
          decide))
        (fun n => ne_parenMsg_take _ a b 1 (by decide) (by
          rw [take_data_append _ _ _ (msgExtraEnd_data n) 1 (by decide)]
          decide))
        (fun x y => ne_parenMsg_take _ a b 1 (by decide) (by
          rw [take_data_append _ _ _ (msgEnvMismatch_data x y) 1 (by decide)]
          decide))
        (fun n => ne_parenMsg_take _ a b 1 (by decide) (by
          rw [take_data_append _ _ _ (msgUnclosedEnv_data n) 1 (by decide)]
          decide))
        (ne_parenMsg_take _ a b 1 (by decide) (by decide))
        (ne_parenMsg_take _ a b 1 (by decide) (by decide))
        (fun o cl => ne_parenMsg_take _ a b 12 (by decide) (by
          rw [take_data_append _ _ _ (msgBracketMismatch_data o cl) 12
            (by decide)]
          decide))
        (fun fs => ne_parenMsg_take _ a b 2 (by decide) (by
          rw [take_data_append _ _ _ (msgMathOutside_data fs) 2 (by decide)]
          decide))]
      unfold parenIssues
      split
      · simp [List.countP_cons]
      · simp

/-! ## Claim C9: `restoreMath` touches only placeholder-shaped keys -/

/-- Exact `__MTH_\d+__` shape. -/
def isMthShape (t : Str) : Bool :=
  match lit "__MTH_".data t with
  | none => false
  | some r =>
    let ds := r.takeWhile fun c => c.isDigit
    !ds.isEmpty && (r.drop ds.length == ['_', '_'])

theorem containsSub_cons (p : Str) (c : Char) (cs : Str) :
    containsSub p (c :: cs) = (p.isPrefixOf (c :: cs) || containsSub p cs) := by
  unfold containsSub
  rw [findSub]
  by_cases h : p.isPrefixOf (c :: cs)
  · simp [h]
  · simp only [h, Bool.false_eq_true, if_false, Bool.false_or]
    cases findSub p cs <;> rfl

theorem takeWhile_digits_append (ds rest : Str)
    (h : ∀ c ∈ ds, c.isDigit = true) :
    (ds ++ '_' :: rest).takeWhile (fun c => c.isDigit) = ds := by
  induction ds with
  | nil => simp [List.takeWhile_cons]
  | cons d ds ih =>
    have hd : d.isDigit = true := h d (List.mem_cons_self d ds)
    simp only [List.cons_append, List.takeWhile_cons, hd, if_true]
    rw [ih fun c hc => h c (List.mem_cons_of_mem d hc)]

theorem lit_spec (p s r : Str) (h : lit p s = some r) : s = p ++ r := by
  unfold lit at h
  by_cases hp : p.isPrefixOf s
  · rw [if_pos hp] at h
    obtain ⟨t, ht⟩ := List.isPrefixOf_iff_prefix.mp hp
    cases h
    rw [← ht, List.drop_left]
  · rw [if_neg hp] at h
    cases h

theorem mthTokAt_spec (s tok rest : Str) (h : mthTokAt s = some (tok, rest)) :
    s = tok ++ rest ∧ isMthShape tok = true ∧ tok ≠ [] := by
  unfold mthTokAt at h
  cases hlit : lit "__MTH_".data s with
  | none => rw [hlit] at h; cases h
  | some r =>
    rw [hlit] at h
    simp only at h
    by_cases hne : (r.takeWhile fun c => c.isDigit).isEmpty
    · rw [if_pos hne] at h; cases h
    · rw [if_neg hne] at h
      set ds := r.takeWhile fun c => c.isDigit with hds
      by_cases hpre2 : "__".data.isPrefixOf (r.drop ds.length)
      · rw [if_pos hpre2] at h
        simp only [Option.some.injEq, Prod.mk.injEq] at h
        obtain ⟨htok, hrest⟩ := h
        have hsr : s = "__MTH_".data ++ r := lit_spec _ _ _ hlit
        have hdspre : ds = r.take ds.length :=
          List.prefix_iff_eq_take.mp (hds ▸ List.takeWhile_prefix _)
        have hr2 : r.drop ds.length = "__".data ++ (r.drop ds.length).drop 2 := by
          have hp : "__".data <+: r.drop ds.length :=
            List.isPrefixOf_iff_prefix.mp hpre2
          have htk := List.prefix_iff_eq_take.mp hp
          have hlen2 : "__".data.length = 2 := rfl
          rw [hlen2] at htk
          conv_lhs => rw [← List.take_append_drop 2 (r.drop ds.length)]
          rw [← htk]
        have hrsplit : r = ds ++ ("__".data ++ (r.drop ds.length).drop 2) := by
          conv_lhs => rw [← List.take_append_drop ds.length r, ← hdspre]
          exact congrArg (fun t => ds ++ t) hr2
        have hdig : ∀ c ∈ ds, c.isDigit = true := fun c hc =>
          List.mem_takeWhile_imp (hds ▸ hc)
        refine ⟨?_, ?_, ?_⟩
        · rw [hsr, hrsplit, ← htok, ← hrest]
          simp
        · rw [← htok]
          unfold isMthShape
          have hassoc : "__MTH_".data ++ ds ++ "__".data =
              "__MTH_".data ++ (ds ++ "__".data) := by simp
          have hlit2 : lit "__MTH_".data
              ("__MTH_".data ++ (ds ++ "__".data)) = some (ds ++ "__".data) := by
            unfold lit
            rw [if_pos (List.isPrefixOf_iff_prefix.mpr (List.prefix_append _ _))]
            rw [List.drop_left]
          rw [hassoc, hlit2]
          simp only
          have htw : (ds ++ "__".data).takeWhile (fun c => c.isDigit) = ds :=
            takeWhile_digits_append ds ['_'] hdig
          rw [htw]
          have hne' : ds.isEmpty = false := by
            cases hx : ds.isEmpty
            · rfl
            · exact absurd hx hne
          rw [hne']
          simp only [Bool.not_false, Bool.true_and]
          rw [List.drop_left]
          rfl
        · rw [← htok]
          simp
      · rw [if_neg hpre2] at h
        cases h

theorem lookupStr_none_of_unshaped (map : List (String × String)) (tok : Str)
    (hmap : ∀ p ∈ map, isMthShape p.1.data = false)
    (htok : isMthShape tok = true) :
    lookupStr map (String.mk tok) = none := by
  induction map with
  | nil => rfl
  | cons p ps ih =>
    unfold lookupStr
    simp only [List.find?]
    by_cases hb : p.1 == String.mk tok
    · have : p.1 = String.mk tok := eq_of_beq hb
      have : p.1.data = tok := by rw [this]
      have := hmap p (List.mem_cons_self p ps)
      rw [‹p.1.data = tok›] at this
      rw [htok] at this
      cases this
    · rw [Bool.not_eq_true] at hb
      rw [hb]
      exact ih fun q hq => hmap q (List.mem_cons_of_mem p hq)

theorem restoreGo_id_unshaped (map : List (String × String))
    (hmap : ∀ p ∈ map, isMthShape p.1.data = false) :
    ∀ fuel s, s.length ≤ fuel → restoreGo map fuel s = s := by
  intro fuel
  induction fuel with
  | zero => intro s _; rfl
  | succ fuel ih =>
    intro s hlen
    cases s with
    | nil => rfl
    | cons c cs =>
      unfold restoreGo
      cases hm : mthTokAt (c :: cs) with
      | none =>
        rw [ih cs (by simpa using Nat.le_of_succ_le_succ hlen)]
      | some pr =>
        obtain ⟨tok, rest⟩ := pr
        obtain ⟨heq, hshape, hne⟩ := mthTokAt_spec _ tok rest hm
        show (match lookupStr map (String.mk tok) with
          | some v => if v.isEmpty then tok else v.data
          | none => tok) ++ restoreGo map fuel rest = c :: cs
        rw [lookupStr_none_of_unshaped map tok hmap hshape]
        have hrest : rest.length ≤ fuel := by
          have h1 : (c :: cs).length = tok.length + rest.length := by
            rw [heq, List.length_append]
          have h2 : 1 ≤ tok.length := List.length_pos.mpr hne
          simp only [List.length_cons] at h1 hlen
          omega
        show tok ++ restoreGo map fuel rest = c :: cs
        rw [ih rest hrest, ← heq]

theorem restoreGo_id_noMth (map : List (String × String)) :
    ∀ fuel s, containsSub "__MTH_".data s = false → restoreGo map fuel s = s := by
  intro fuel
  induction fuel with
  | zero => intro s _; rfl
  | succ fuel ih =>
    intro s hs
    cases s with
    | nil => rfl
    | cons c cs =>
      rw [containsSub_cons] at hs
      have hpre : "__MTH_".data.isPrefixOf (c :: cs) = false := by
        cases hx : "__MTH_".data.isPrefixOf (c :: cs)
        · rfl
        · rw [hx] at hs; cases hs
      have htail : containsSub "__MTH_".data cs = false := by
        cases hx : containsSub "__MTH_".data cs
        · rfl
        · rw [hx] at hs; simp at hs
      unfold restoreGo
      cases hm : mthTokAt (c :: cs) with
      | none => rw [ih cs htail]
      | some pr =>
        exfalso
        unfold mthTokAt at hm
        unfold lit at hm
        rw [hpre] at hm
        simp at hm

/-- A placeholder split in the claim's sense: `s` starts with a substring
of the exact shape `__MTH_<digits>__` (a nonempty digit run `ds`),
followed by `rest`. -/
def MthTokSplit (s tok rest : Str) : Prop :=
  ∃ ds : Str, ds ≠ [] ∧ (∀ c ∈ ds, c.isDigit = true) ∧
    tok = "__MTH_".data ++ ds ++ "__".data ∧ s = tok ++ rest

/-- The claim's characterization of the restore pass, stated from its
wording: scanning left to right, a position where no placeholder-shaped
token starts is copied unchanged; a placeholder-shaped token that is a
key of the map is replaced by the stored value (kept verbatim when the
stored value is the falsy empty string, as `mathMap[m] || m` does); a
placeholder-shaped token that is not a key is left unchanged. -/
inductive RestoreSpec (map : List (String × String)) : Str → Str → Prop
  | nil : RestoreSpec map [] []
  | copy (c : Char) (s t : Str) :
      (∀ tok rest, ¬ MthTokSplit (c :: s) tok rest) →
      RestoreSpec map s t → RestoreSpec map (c :: s) (c :: t)
  | keyTok (tok rest t : Str) (v : String) :
      MthTokSplit (tok ++ rest) tok rest →
      lookupStr map (String.mk tok) = some v → v.isEmpty = false →
      RestoreSpec map rest t → RestoreSpec map (tok ++ rest) (v.data ++ t)
  | keyTokEmptyVal (tok rest t : Str) (v : String) :
      MthTokSplit (tok ++ rest) tok rest →
      lookupStr map (String.mk tok) = some v → v.isEmpty = true →
      RestoreSpec map rest t → RestoreSpec map (tok ++ rest) (tok ++ t)
  | nonKeyTok (tok rest t : Str) :
      MthTokSplit (tok ++ rest) tok rest →
      lookupStr map (String.mk tok) = none →
      RestoreSpec map rest t → RestoreSpec map (tok ++ rest) (tok ++ t)

theorem lit_self_append (p x : Str) : lit p (p ++ x) = some x := by
  unfold lit
  rw [if_pos (List.isPrefixOf_iff_prefix.mpr (List.prefix_append _ _)),
    List.drop_left]

theorem mthTokAt_of_split (s tok rest : Str) (h : MthTokSplit s tok rest) :
    mthTokAt s = some (tok, rest) := by
  obtain ⟨ds, hne, hdig, htok, hs⟩ := h
  subst htok
  subst hs
  have hne2 : ds.isEmpty = false := by
    cases ds with
    | nil => exact absurd rfl hne
    | cons a as => rfl
  have htw : (ds ++ ("__".data ++ rest)).takeWhile (fun c => c.isDigit) = ds := by
    rw [show "__".data ++ rest = '_' :: ('_' :: rest) from rfl]
    exact takeWhile_digits_append ds ('_' :: rest) hdig
  have hassoc : ("__MTH_".data ++ ds ++ "__".data) ++ rest =
      "__MTH_".data ++ (ds ++ ("__".data ++ rest)) := by simp
  rw [hassoc]
  unfold mthTokAt
  rw [lit_self_append]
  simp only
  rw [htw]
  simp only [hne2, Bool.false_eq_true, if_false]
  rw [List.drop_left]
  rw [if_pos (List.isPrefixOf_iff_prefix.mpr (List.prefix_append _ _))]
  rfl

theorem split_of_shape (tok : Str) (h : isMthShape tok = true) :
    ∃ ds : Str, ds ≠ [] ∧ (∀ c ∈ ds, c.isDigit = true) ∧
      tok = "__MTH_".data ++ ds ++ "__".data := by
  unfold isMthShape at h
  cases hlit : lit "__MTH_".data tok with
  | none => rw [hlit] at h; cases h
  | some r =>
    rw [hlit] at h
    simp only at h
    set ds := r.takeWhile fun c => c.isDigit with hds
    rw [Bool.and_eq_true] at h
    obtain ⟨hne1, heq2⟩ := h
    have hne : ds ≠ [] := by
      intro hnil
      rw [hnil] at hne1
      simp at hne1
    have hdrop : r.drop ds.length = ['_', '_'] := eq_of_beq heq2
    have hdspre : ds = r.take ds.length :=
      List.prefix_iff_eq_take.mp (hds ▸ List.takeWhile_prefix _)
    have hrsplit : r = ds ++ ['_', '_'] := by
      conv_lhs => rw [← List.take_append_drop ds.length r]
      rw [← hdspre, hdrop]
    have hdig : ∀ c ∈ ds, c.isDigit = true := fun c hc =>
      List.mem_takeWhile_imp (hds ▸ hc)
    refine ⟨ds, hne, hdig, ?_⟩
    rw [lit_spec _ _ _ hlit, hrsplit,
      show (['_', '_'] : Str) = "__".data from rfl, ← List.append_assoc]

theorem mthTokAt_split (s tok rest : Str) (h : mthTokAt s = some (tok, rest)) :
    MthTokSplit s tok rest := by
  obtain ⟨heq, hshape, _⟩ := mthTokAt_spec s tok rest h
  obtain ⟨ds, hne, hdig, htok⟩ := split_of_shape tok hshape
  exact ⟨ds, hne, hdig, htok, heq⟩

theorem mthTokSplit_length (s tok rest : Str) (h : MthTokSplit s tok rest) :
    8 ≤ tok.length ∧ s.length = tok.length + rest.length := by
  obtain ⟨ds, hne, _, htok, hs⟩ := h
  constructor
  · rw [htok, List.length_append, List.length_append,
      show "__MTH_".data.length = 6 from rfl, show "__".data.length = 2 from rfl]
    have h1 : 1 ≤ ds.length := List.length_pos.mpr hne
    omega
  · rw [hs, List.length_append]

theorem restoreGo_restores (map : List (String × String)) :
    ∀ fuel s, s.length ≤ fuel → RestoreSpec map s (restoreGo map fuel s) := by
  intro fuel
  induction fuel with
  | zero =>
    intro s hlen
    have hs : s = [] := List.length_eq_zero.mp (Nat.le_zero.mp hlen)
    subst hs
    exact RestoreSpec.nil
  | succ fuel ih =>
    intro s hlen
    cases s with
    | nil => exact RestoreSpec.nil
    | cons c cs =>
      unfold restoreGo
      cases hm : mthTokAt (c :: cs) with
      | none =>
        show RestoreSpec map (c :: cs) (c :: restoreGo map fuel cs)
        refine RestoreSpec.copy c cs _ ?_
          (ih cs (by simpa using Nat.le_of_succ_le_succ hlen))
        intro tok rest hsplit
        rw [mthTokAt_of_split _ _ _ hsplit] at hm
        cases hm
      | some pr =>
        obtain ⟨tok, rest⟩ := pr
        obtain ⟨heq, hshape, hne⟩ := mthTokAt_spec _ tok rest hm
        have hsplit : MthTokSplit (c :: cs) tok rest := mthTokAt_split _ _ _ hm
        have hrest : rest.length ≤ fuel := by
          have h1 : (c :: cs).length = tok.length + rest.length := by
            rw [heq, List.length_append]
          have h2 : 1 ≤ tok.length := List.length_pos.mpr hne
          simp only [List.length_cons] at h1 hlen
          omega
        have hrec := ih rest hrest
        show RestoreSpec map (c :: cs) ((match lookupStr map (String.mk tok) with
          | some v => if v.isEmpty then tok else v.data
          | none => tok) ++ restoreGo map fuel rest)
        rw [heq] at hsplit ⊢
        cases hlk : lookupStr map (String.mk tok) with
        | none =>
          show RestoreSpec map (tok ++ rest) (tok ++ restoreGo map fuel rest)
          exact RestoreSpec.nonKeyTok tok rest _ hsplit hlk hrec
        | some v =>
          show RestoreSpec map (tok ++ rest)
            ((if v.isEmpty then tok else v.data) ++ restoreGo map fuel rest)
          by_cases hv : v.isEmpty = true
          · rw [if_pos hv]
            exact RestoreSpec.keyTokEmptyVal tok rest _ v hsplit hlk hv hrec
          · have hv2 : v.isEmpty = false := by
              cases hx : v.isEmpty
              · rfl
              · exact absurd hx hv
            rw [if_neg hv]
            exact RestoreSpec.keyTok tok rest _ v hsplit hlk hv2 hrec

theorem RestoreSpec_eq_restoreGo (map : List (String × String)) (s t : Str)
    (h : RestoreSpec map s t) :
    ∀ fuel, s.length ≤ fuel → t = restoreGo map fuel s := by
  induction h with
  | nil =>
    intro fuel _
    cases fuel <;> rfl
  | copy c s t hno hrec ih =>
    intro fuel hlen
    cases fuel with
    | zero => simp only [List.length_cons] at hlen; omega
    | succ f =>
      have hm : mthTokAt (c :: s) = none := by
        cases hm : mthTokAt (c :: s) with
        | none => rfl
        | some pr =>
          obtain ⟨tok, rest⟩ := pr
          exact absurd (mthTokAt_split _ _ _ hm) (hno tok rest)
      unfold restoreGo
      rw [hm]
      rw [ih f (by simpa using Nat.le_of_succ_le_succ hlen)]
  | keyTok tok rest t v hsplit hlk hv hrec ih =>
    intro fuel hlen
    have hm0 : mthTokAt (tok ++ rest) = some (tok, rest) :=
      mthTokAt_of_split _ _ _ hsplit
    obtain ⟨htlen, _⟩ := mthTokSplit_length _ _ _ hsplit
    rw [List.length_append] at hlen
    cases fuel with
    | zero => omega
    | succ f =>
      have hrl : rest.length ≤ f := by omega
      have htokne : tok ≠ [] := by
        intro h0
        rw [h0] at htlen
        simp at htlen
      obtain ⟨c, cs, hcons⟩ := List.exists_cons_of_ne_nil htokne
      subst hcons
      rw [List.cons_append]
      rw [List.cons_append] at hm0
      unfold restoreGo
      rw [hm0]
      show v.data ++ t = (match lookupStr map (String.mk (c :: cs)) with
        | some w => if w.isEmpty then c :: cs else w.data
        | none => c :: cs) ++ restoreGo map f rest
      rw [hlk]
      show v.data ++ t =
        (if v.isEmpty then c :: cs else v.data) ++ restoreGo map f rest
      rw [if_neg (by simp [hv]), ih f hrl]
  | keyTokEmptyVal tok rest t v hsplit hlk hv hrec ih =>
    intro fuel hlen
    have hm0 : mthTokAt (tok ++ rest) = some (tok, rest) :=
      mthTokAt_of_split _ _ _ hsplit
    obtain ⟨htlen, _⟩ := mthTokSplit_length _ _ _ hsplit
    rw [List.length_append] at hlen
    cases fuel with
    | zero => omega
    | succ f =>
      have hrl : rest.length ≤ f := by omega
      have htokne : tok ≠ [] := by
        intro h0
        rw [h0] at htlen
        simp at htlen
      obtain ⟨c, cs, hcons⟩ := List.exists_cons_of_ne_nil htokne
      subst hcons
      conv_rhs => rw [List.cons_append]
      rw [List.cons_append] at hm0
      unfold restoreGo
      rw [hm0]
      show (c :: cs) ++ t = (match lookupStr map (String.mk (c :: cs)) with
        | some w => if w.isEmpty then c :: cs else w.data
        | none => c :: cs) ++ restoreGo map f rest
      rw [hlk]
      show (c :: cs) ++ t =
        (if v.isEmpty then c :: cs else v.data) ++ restoreGo map f rest
      rw [if_pos hv, ih f hrl]
  | nonKeyTok tok rest t hsplit hlk hrec ih =>
    intro fuel hlen
    have hm0 : mthTokAt (tok ++ rest) = some (tok, rest) :=
      mthTokAt_of_split _ _ _ hsplit
    obtain ⟨htlen, _⟩ := mthTokSplit_length _ _ _ hsplit
    rw [List.length_append] at hlen
    cases fuel with
    | zero => omega
    | succ f =>
      have hrl : rest.length ≤ f := by omega
      have htokne : tok ≠ [] := by
        intro h0
        rw [h0] at htlen
        simp at htlen
      obtain ⟨c, cs, hcons⟩ := List.exists_cons_of_ne_nil htokne
      subst hcons
      conv_rhs => rw [List.cons_append]
      rw [List.cons_append] at hm0
      unfold restoreGo
      rw [hm0]
      show (c :: cs) ++ t = (match lookupStr map (String.mk (c :: cs)) with
        | some w => if w.isEmpty then c :: cs else w.data
        | none => c :: cs) ++ restoreGo map f rest
      rw [hlk]
      rw [ih f hrl]

theorem restoreSpec_unique (map : List (String × String)) (s t1 t2 : Str)
    (h1 : RestoreSpec map s t1) (h2 : RestoreSpec map s t2) : t1 = t2 := by
  rw [RestoreSpec_eq_restoreGo map s t1 h1 s.length (le_refl _),
    RestoreSpec_eq_restoreGo map s t2 h2 s.length (le_refl _)]

/-- C9: for every html and every map, the output of `restoreMath`
satisfies the claim's rule `RestoreSpec`: only substrings of the exact
shape `__MTH_<digits>__` that are keys of the map are replaced — by the
stored value, the token being kept when the stored value is the falsy
empty string — while every such substring that is not a key, and every
position where no such substring starts, is left unchanged; the rule is
deterministic (conjunct 2), so it pins the output uniquely; and in
particular `restoreMath` with the empty map is the identity. -/
theorem restoreMath_only_keys_c9 :
    (∀ (html : String) (map : List (String × String)),
      RestoreSpec map html.data (restoreMath html map).data) ∧
    (∀ (map : List (String × String)) (s t1 t2 : Str),
      RestoreSpec map s t1 → RestoreSpec map s t2 → t1 = t2) ∧
    (∀ html : String, restoreMath html [] = html) := by
  refine ⟨?_, ?_, ?_⟩
  · intro html map
    exact restoreGo_restores map html.data.length html.data (le_refl _)
  · intro map s t1 t2 h1 h2
    exact restoreSpec_unique map s t1 t2 h1 h2
  · intro html
    show String.mk (restoreGo [] html.data.length html.data) = html
    rw [restoreGo_id_unshaped [] (by intro p hp; cases hp) _ _ (le_refl _)]

/-- Witness for C9 at concrete inputs, including an actual replacement:
the key `__MTH_0__` is rewritten to the stored value `$x$` both inside
surrounding text and via the uniqueness conjunct applied to an explicit
derivation. -/
theorem restoreMath_only_keys_c9_witness :
    RestoreSpec [("__MTH_0__", "$x$")] "a__MTH_0__b".data
      (restoreMath "a__MTH_0__b" [("__MTH_0__", "$x$")]).data ∧
    restoreMath "a__MTH_0__b" [("__MTH_0__", "$x$")] = "a$x$b" ∧
    "$x$".data ++ ['b'] =
      (restoreMath "__MTH_0__b" [("__MTH_0__", "$x$")]).data ∧
    restoreMath "plain" [] = "plain" := by
  refine ⟨restoreMath_only_keys_c9.1 "a__MTH_0__b" _, by decide, ?_,
    restoreMath_only_keys_c9.2.2 "plain"⟩
  have hd : ("__MTH_0__b".data : Str) = "__MTH_0__".data ++ ['b'] := by decide
  have hinner : RestoreSpec [("__MTH_0__", "$x$")] ['b'] ['b'] := by
    refine RestoreSpec.copy 'b' [] [] ?_ RestoreSpec.nil
    intro tok rest hsp
    obtain ⟨hlen8, hlen⟩ := mthTokSplit_length _ _ _ hsp
    simp only [List.length_cons, List.length_nil] at hlen
    omega
  have h1 : RestoreSpec [("__MTH_0__", "$x$")] ("__MTH_0__".data ++ ['b'])
      ("$x$".data ++ ['b']) :=
    RestoreSpec.keyTok "__MTH_0__".data ['b'] ['b'] "$x$"
      ⟨['0'], by decide, by decide, by decide, rfl⟩ (by decide) (by decide) hinner
  have h2 : RestoreSpec [("__MTH_0__", "$x$")] ("__MTH_0__".data ++ ['b'])
      (restoreMath "__MTH_0__b" [("__MTH_0__", "$x$")]).data := by
    rw [← hd]
    exact restoreMath_only_keys_c9.1 "__MTH_0__b" _
  exact restoreMath_only_keys_c9.2.1 [("__MTH_0__", "$x$")]
    ("__MTH_0__".data ++ ['b']) _ _ h1 h2

/-! ## Claim C8: totality — the strict twin always returns `ok`, and the
description-list split is total on items without a closing bracket -/

theorem charAtE_ok (l : Str) (i : Nat) (h : i < l.length) :
    charAtE l i = .ok (l.get ⟨i, h⟩) := by
  unfold charAtE
  rw [List.get?_eq_get h]

theorem braceEscapedE_ok (l : Str) (i : Nat) (h : i < l.length) :
    braceEscapedE l i = .ok (braceEscaped l i) := by
  unfold braceEscapedE braceEscaped
  by_cases h0 : i = 0
  · subst h0
    rfl
  · have h0' : (i != 0) = true := by simp [h0]
    have hi1 : i - 1 < l.length := by omega
    have hsome1 : (l.get? (i - 1) == some '\\') =
        (l.get ⟨i - 1, hi1⟩ == '\\') := by
      rw [List.get?_eq_get hi1]
      rfl
    rw [h0', charAtE_ok l (i - 1) hi1, hsome1]
    simp only [if_true, Bool.true_and]
    cases hp1 : (l.get ⟨i - 1, hi1⟩ == '\\') with
    | false => simp
    | true =>
      simp only [if_true]
      by_cases h1 : i = 1
      · simp [h1]
      · have h1' : (i == 1) = false := by simp [h1]
        have hi2 : i - 2 < l.length := by omega
        have hsome2 : (l.get? (i - 2) != some '\\') =
            (l.get ⟨i - 2, hi2⟩ != '\\') := by
          rw [List.get?_eq_get hi2]
          rfl
        rw [h1', charAtE_ok l (i - 2) hi2, hsome2]
        simp

theorem braceLoop_oob (l : Str) (fuel i : Nat) (d : Int)
    (hget : l.get? i = none) : braceLoop l (fuel + 1) i d = .done d := by
  conv_lhs => rw [braceLoop]
  rw [hget]

theorem braceLoopE_eq (l : Str) : ∀ fuel i d,
    braceLoopE l fuel i d = .ok (braceLoop l fuel i d) := by
  intro fuel
  induction fuel with
  | zero => intro i d; rfl
  | succ fuel ih =>
    intro i d
    by_cases hi : i < l.length
    · have hget : l.get? i = some (l.get ⟨i, hi⟩) := List.get?_eq_get hi
      rw [braceLoop_succ l fuel i d _ hget]
      conv_lhs => rw [braceLoopE]
      rw [if_pos hi, charAtE_ok l i hi, braceEscapedE_ok l i hi]
      simp only
      by_cases hlt : (if !braceEscaped l i && l.get ⟨i, hi⟩ == '{' then d + 1
          else if !braceEscaped l i && l.get ⟨i, hi⟩ == '}' then d - 1
          else d) < 0
      · rw [if_pos hlt, if_pos hlt]
      · rw [if_neg hlt, if_neg hlt]
        exact ih (i + 1) _
    · have hget : l.get? i = none := List.get?_eq_none.mpr (by omega)
      rw [braceLoop_oob l fuel i d hget]
      conv_lhs => rw [braceLoopE]
      rw [if_neg hi]

theorem validateLatexE_ok (latex : String) :
    validateLatexE latex = Except.ok (validateLatex latex) := by
  unfold validateLatexE validateLatex
  by_cases h : latex.data.isEmpty
  · rw [if_pos h, if_pos h]
  · rw [if_neg h, if_neg h]
    show Except.bind (braceLoopE latex.data (latex.data.length + 1) 0 0) _ =
      Except.ok (validateLatexL latex.data)
    rw [braceLoopE_eq]
    rfl

theorem not_mem_of_not_containsSub (t : Char) (s : Str)
    (h : containsSub [t] s = false) : ∀ x ∈ s, (x == t) = false := by
  induction s with
  | nil => intro x hx; cases hx
  | cons c cs ih =>
    rw [containsSub_cons] at h
    have hpre : [t].isPrefixOf (c :: cs) = false := by
      cases hx : [t].isPrefixOf (c :: cs)
      · rfl
      · rw [hx] at h; cases h
    have htail : containsSub [t] cs = false := by
      cases hx : containsSub [t] cs
      · rfl
      · rw [hx] at h; simp at h
    intro x hx
    rcases List.mem_cons.mp hx with rfl | hmem
    · apply beq_eq_false_iff_ne.mpr
      intro he
      subst he
      have hp : [x].isPrefixOf (x :: cs) = true :=
        List.isPrefixOf_iff_prefix.mpr ⟨cs, rfl⟩
      rw [hp] at hpre
      cases hpre
    · exact ih htail x hmem

theorem descItemPair_no_bracket (seg : Str)
    (h : containsSub "]".data seg = false) :
    descItemPair seg = ([], jsTrim seg) := by
  have hidx : jsIndexOfChar ']' seg = -1 := by
    unfold jsIndexOfChar
    rw [List.findIdx?_eq_none_iff.mpr (not_mem_of_not_containsSub ']' seg h)]
  unfold descItemPair
  rw [hidx]
  dsimp only
  have hn : (0 : Int) ≤ (seg.length : Int) := Int.natCast_nonneg _
  have h1 : jsSubstring seg 0 (-1) = [] := by
    unfold jsSubstring
    dsimp only
    rw [show max 0 (min 0 ((seg.length : Int))) = 0 by omega,
      show max 0 (min (-1) ((seg.length : Int))) = 0 by omega]
    simp
  have h2 : jsSubstring seg (-1 + 1) (seg.length : Int) = seg := by
    unfold jsSubstring
    dsimp only
    rw [show ((-1 : Int) + 1) = 0 by omega]
    rw [show max 0 (min 0 ((seg.length : Int))) = 0 by omega,
      show max 0 (min ((seg.length : Int)) ((seg.length : Int))) =
        ((seg.length : Int)) by omega]
    rw [show min (0 : Int) ((seg.length : Int)) = 0 by omega,
      show max (0 : Int) ((seg.length : Int)) = ((seg.length : Int)) by omega]
    simp
  rw [h1, h2]

/-- C8: the strict-access twin of the validator never reaches an error
branch (every guarded index read of the brace scan is in bounds), and the
converter's description-item split is total even when the closing bracket
is absent, yielding an empty term and the whole trimmed item as the
description. -/
theorem validateLatex_total_c8 (latex seg : String) :
    validateLatexE latex = Except.ok (validateLatex latex) ∧
    (containsSub "]".data seg.data = false →
      descItemPair seg.data = ([], jsTrim seg.data)) :=
  ⟨validateLatexE_ok latex, fun h => descItemPair_no_bracket seg.data h⟩

/-- Witness for C8. -/
theorem validateLatex_total_c8_witness :
    validateLatexE "\x7ba" = Except.ok (validateLatex "\x7ba") ∧
    descItemPair "abc".data = ([], jsTrim "abc".data) :=
  ⟨(validateLatex_total_c8 "\x7ba" "abc").1,
   (validateLatex_total_c8 "\x7ba" "abc").2 (by decide)⟩

/-! ## Claim C1: the placeholder round-trip invariant fails on nested
display math -/

/-- C1 (failing input): on `\[$$x$$\]` the inner `$$x$$` is protected
first, so the outer `\[…\]` span captured afterwards contains the inner
*block* placeholder; the returned `mathMap` then holds the key
`__MTH_0__` which never occurs in the returned `html`, and restoring the
math re-exposes the internal `__BLK_0__` token instead of the original
bytes. -/
theorem convertLatexToHtml_nested_display_orphan :
    convertLatexToHtml "\\[$$x$$\\]" =
      ⟨"__MTH_1__",
       [("__MTH_0__", "$$x$$"), ("__MTH_1__", "\\[\n\n__BLK_0__\n\n\\]")]⟩ ∧
    containsSub "__MTH_0__".data
      (convertLatexToHtml "\\[$$x$$\\]").html.data = false ∧
    restoreMath (convertLatexToHtml "\\[$$x$$\\]").html
        (convertLatexToHtml "\\[$$x$$\\]").mathMap =
      "\\[\n\n__BLK_0__\n\n\\]" := by
  refine ⟨by decide, by decide, by decide⟩

end AutoAccess
